import Mathlib

/-
Formal model of the offline synchronization engine of the MauritiusMeatMarket
repository (src/lib/offline/offlineService.ts, src/types/index.ts,
src/lib/config.ts), together with theorems about its queue and sync semantics.

The IndexedDB-backed service is embedded shallowly: the four object stores
(orders, customers, products, sync_queue) become lists inside an explicit
ServiceState, IndexedDB request failures and remote (odooService) call
outcomes are injected through a SyncEnv oracle, and every public method of
the OfflineService class becomes a pure state-passing function.  IndexedDB
getAll on the status index returns records in ascending primary-key order;
since the queue store uses an autoincrement key, this is modelled by keeping
the queue list in insertion order and filtering it.  Monetary arithmetic
(JavaScript numbers in the source) is modelled over the rationals.
-/

namespace MMM

/-- Entity type of a queue item: the type field of OfflineQueueItem. -/
inductive QType where
  | order
  | customer
  | product
deriving DecidableEq, Repr

/-- Mutation action of a queue item: the action field of OfflineQueueItem. -/
inductive QAction where
  | create
  | update
  | delete
deriving DecidableEq, Repr

/-- Queue item status: pending, syncing, failed or completed. -/
inductive QStatus where
  | pending
  | syncing
  | failed
  | completed
deriving DecidableEq, Repr

/-- One order line as supplied in the draft passed to createOfflineOrder. -/
structure DraftItem where
  productId : String
  productName : String
  productImage : Option String
  quantity : ℚ
  unitPrice : ℚ
  discount : Option ℚ
deriving DecidableEq, Repr

/-- Draft order data (the orderData argument of createOfflineOrder). -/
structure OrderDraft where
  customerId : String
  customerName : String
  items : List DraftItem
  salespersonId : Option String
  salespersonName : Option String
  deliveryAddress : Option String
  notes : Option String
deriving DecidableEq, Repr

/-- One computed order line stored on an Order record. -/
structure OrderItem where
  id : String
  productId : String
  productName : String
  productImage : Option String
  quantity : ℚ
  unitPrice : ℚ
  discount : ℚ
  subtotal : ℚ
deriving DecidableEq, Repr

/-- Order record as stored in the local orders collection. -/
structure Order where
  id : String
  orderNumber : String
  customerId : String
  customerName : String
  date : String
  status : String
  items : List OrderItem
  subtotal : ℚ
  tax : ℚ
  total : ℚ
  salespersonId : String
  salespersonName : String
  deliveryAddress : Option String
  notes : Option String
  createdAt : String
  updatedAt : String
  syncStatus : String
deriving DecidableEq, Repr

/-- Customer record as stored in the local customers collection. -/
structure Customer where
  id : String
  name : String
  email : String
  status : String
deriving DecidableEq, Repr

/-- Product record as stored in the local products collection. -/
structure Product where
  id : String
  name : String
  sku : String
deriving DecidableEq, Repr

/-- Payload of a queue item (the untyped data field of OfflineQueueItem).
For order creations enqueued by createOfflineOrder it is the spread of the
draft together with localOrderId and localOrderNumber; for updates and
deletes the id field of the payload is what the dispatch uses. -/
structure QueueData where
  draft : Option OrderDraft := none
  localOrderId : Option String := none
  localOrderNumber : Option String := none
  entityId : Option String := none
deriving DecidableEq, Repr

/-- OfflineQueueItem from src/types/index.ts. -/
structure QueueItem where
  id : Nat
  type : QType
  action : QAction
  data : QueueData
  timestamp : Nat
  retryCount : Nat
  status : QStatus
  error : Option String
deriving DecidableEq, Repr

/-- Argument of addToSyncQueue: a queue item without id, timestamp,
retryCount and status. -/
structure Mutation where
  type : QType
  action : QAction
  data : QueueData
deriving DecidableEq, Repr

/-- SyncStatus snapshot from src/types/index.ts. -/
structure SyncStatusR where
  isOnline : Bool
  lastSyncTime : Option Nat
  pendingItems : Nat
  isSyncing : Bool
deriving DecidableEq, Repr

/-- One remote (odooService) call that the engine can issue. -/
inductive RemoteCall where
  | createOrder (d : QueueData)
  | updateOrder (oid : Option String) (d : QueueData)
  | cancelOrder (oid : Option String)
  | createCustomer (d : QueueData)
  | updateCustomer (cid : Option String) (d : QueueData)
  | getOrders (page pageSize : Nat)
  | getCustomers (page pageSize : Nat)
  | getProducts (page pageSize : Nat)
deriving DecidableEq, Repr

/-- SYNC_CONFIG from src/lib/config.ts (the fields the engine reads). -/
structure SyncConfig where
  interval : Nat
  maxRetryAttempts : Nat
deriving DecidableEq, Repr

/-- Default SYNC_CONFIG values: 5 minute interval, 3 retry attempts. -/
def SYNC_CONFIG : SyncConfig := { interval := 300000, maxRetryAttempts := 3 }

/-- Environment oracle: outcomes of remote calls, outcomes of fallible
IndexedDB requests, and the server data returned by the refresh phase. -/
structure SyncEnv where
  callOk : RemoteCall → Bool
  callErr : RemoteCall → String
  readPendingOk : Bool
  updateOk : Nat → QStatus → Bool
  deleteOk : Nat → Bool
  storeErr : String
  serverOrders : List Order
  serverCustomers : List Customer
  serverProducts : List Product

/-- Full state of the offline service: the online flag, the single-flight
syncing flag, the four IndexedDB collections, the autoincrement key counter
of the queue store, a log of successful queue status writes, the number of
listener broadcasts issued, and the trace of remote calls issued. -/
structure ServiceState where
  isOnline : Bool
  syncInProgress : Bool
  orders : List Order
  customers : List Customer
  products : List Product
  queue : List QueueItem
  nextQueueId : Nat
  events : List (Nat × QStatus)
  broadcasts : Nat
  remoteTrace : List RemoteCall
deriving DecidableEq, Repr

/-- Result of an operation that can reject: the state reached so far plus,
on rejection, the error message of the rejection. -/
inductive StoreResult where
  | ok (s : ServiceState)
  | err (s : ServiceState) (msg : String)
deriving Repr

/-- State carried by a StoreResult, whichever branch it is. -/
def StoreResult.state : StoreResult → ServiceState
  | .ok s => s
  | .err s _ => s

/-- notifyListeners: recomputes the status and broadcasts it; modelled by
counting the broadcasts. -/
def notify (s : ServiceState) : ServiceState :=
  { s with broadcasts := s.broadcasts + 1 }

/-- Key lookup in the queue store (store.get on the autoincrement key). -/
def findItem (q : List QueueItem) (iid : Nat) : Option QueueItem :=
  q.find? (fun j => j.id == iid)

/-- Upsert into the orders collection (store.put, keyPath id). -/
def upsertOrder (os : List Order) (o : Order) : List Order :=
  if os.any (fun x => x.id == o.id) then
    os.map (fun x => if x.id == o.id then o else x)
  else os ++ [o]

/-- Upsert into the customers collection (store.put, keyPath id). -/
def upsertCustomer (cs : List Customer) (c : Customer) : List Customer :=
  if cs.any (fun x => x.id == c.id) then
    cs.map (fun x => if x.id == c.id then c else x)
  else cs ++ [c]

/-- Upsert into the products collection (store.put, keyPath id). -/
def upsertProduct (ps : List Product) (p : Product) : List Product :=
  if ps.any (fun x => x.id == p.id) then
    ps.map (fun x => if x.id == p.id then p else x)
  else ps ++ [p]

/-- saveOrderLocally: put the order into the orders store. -/
def saveOrderLocally (s : ServiceState) (o : Order) : ServiceState :=
  { s with orders := (upsertOrder s.orders o) }

/-- saveCustomerLocally: put the customer into the customers store. -/
def saveCustomerLocally (s : ServiceState) (c : Customer) : ServiceState :=
  { s with customers := (upsertCustomer s.customers c) }

/-- saveProductLocally: put the product into the products store. -/
def saveProductLocally (s : ServiceState) (p : Product) : ServiceState :=
  { s with products := (upsertProduct s.products p) }

/-- getLocalOrderById: key lookup in the orders store. -/
def getLocalOrderById (s : ServiceState) (oid : String) : Option Order :=
  s.orders.find? (fun o => o.id == oid)

/-- deleteLocalOrder: delete from the orders store by key. -/
def deleteLocalOrder (s : ServiceState) (oid : String) : ServiceState :=
  { s with orders := s.orders.filter (fun o => o.id != oid) }

/-- addToSyncQueue: store.add of the item extended with a timestamp,
retryCount 0 and status pending; the autoincrement key is assigned by the
store; on success the listeners are notified. -/
def addToSyncQueue (now : Nat) (m : Mutation) (s : ServiceState) : ServiceState :=
  let item : QueueItem :=
    { id := s.nextQueueId, type := m.type, action := m.action, data := m.data,
      timestamp := now, retryCount := 0, status := .pending, error := none }
  notify { s with queue := s.queue ++ [item], nextQueueId := s.nextQueueId + 1 }

/-- getPendingQueueItems: getAll on the status index with key pending;
IndexedDB returns the matches in ascending primary-key order, which for the
insertion-ordered model list is the list order. -/
def getPendingQueueItems (q : List QueueItem) : List QueueItem :=
  q.filter (fun i => i.status == QStatus.pending)

/-- Error-field update of updateQueueItemStatus: the error is overwritten
only when a truthy (nonempty) message is supplied. -/
def errUpd (old : Option String) (msg : Option String) : Option String :=
  match msg with
  | some e => if e = "" then old else some e
  | none => old

/-- In-place record mutation performed by updateQueueItemStatus on the item
with the given key: set the status, optionally set the error, and increment
retryCount when the new status is failed. -/
def updFn (iid : Nat) (st : QStatus) (msg : Option String) (j : QueueItem) : QueueItem :=
  if j.id == iid then
    { j with
      status := st,
      error := (errUpd j.error msg),
      retryCount := if st == QStatus.failed then j.retryCount + 1 else j.retryCount }
  else j

/-- Queue-store effect of updateQueueItemStatus. -/
def updQueue (q : List QueueItem) (iid : Nat) (st : QStatus) (msg : Option String) :
    List QueueItem :=
  q.map (updFn iid st msg)

/-- updateQueueItemStatus: get the item by key, mutate it, put it back and
notify; rejects when the get or put request fails or when the item does not
exist.  A successful write is logged in the events list. -/
def updateQueueItemStatus (env : SyncEnv) (s : ServiceState) (iid : Nat)
    (st : QStatus) (msg : Option String) : StoreResult :=
  if env.updateOk iid st then
    match findItem s.queue iid with
    | some _ =>
        .ok (notify { s with
                      queue := (updQueue s.queue iid st msg),
                      events := s.events ++ [(iid, st)] })
    | none => .err s "Queue item not found"
  else .err s env.storeErr

/-- deleteQueueItem: delete by key and notify; rejects on request failure. -/
def deleteQueueItem (env : SyncEnv) (s : ServiceState) (iid : Nat) : StoreResult :=
  if env.deleteOk iid then
    .ok (notify { s with queue := s.queue.filter (fun j => j.id != iid) })
  else .err s env.storeErr

/-- Remote call implied by a queue item's type, action and payload, as
dispatched by processSyncItem / syncOrder / syncCustomer / syncProduct.
A customer deletion matches no case of the syncCustomer switch and a
product item is a logged no-op, so neither issues a call. -/
def dispatchOf (t : QType) (a : QAction) (d : QueueData) : Option RemoteCall :=
  match t, a with
  | .order, .create => some (.createOrder d)
  | .order, .update => some (.updateOrder d.entityId d)
  | .order, .delete => some (.cancelOrder d.entityId)
  | .customer, .create => some (.createCustomer d)
  | .customer, .update => some (.updateCustomer d.entityId d)
  | .customer, .delete => none
  | .product, _ => none

/-- Remote call of a queue item. -/
def dispatchCall (i : QueueItem) : Option RemoteCall :=
  dispatchOf i.type i.action i.data

/-- processSyncItem: issue the remote call implied by the item, recording
it in the trace; rejects with the remote error when the call fails. -/
def processSyncItem (env : SyncEnv) (i : QueueItem) (s : ServiceState) : StoreResult :=
  match dispatchCall i with
  | none => .ok s
  | some c =>
      let s1 := { s with remoteTrace := s.remoteTrace ++ [c] }
      if env.callOk c then .ok s1 else .err s1 (env.callErr c)

/-- Catch clause of the per-item try inside the drain loop: mark the item
failed with the caught error message; a rejection of this very update
escapes to the outer catch of syncAll. -/
def innerFail (env : SyncEnv) (i : QueueItem) (s : ServiceState) (msg : String) :
    StoreResult :=
  updateQueueItemStatus env s i.id .failed (some msg)

/-- Body of the drain loop of syncAll for one snapshot item: if its
retryCount has reached maxRetryAttempts, mark it failed and skip; otherwise
mark it syncing, dispatch it, and on success mark it completed and delete
it; any rejection inside the per-item try is caught and recorded by marking
the item failed. -/
def drainStep (env : SyncEnv) (cfg : SyncConfig) (s : ServiceState) (i : QueueItem) :
    StoreResult :=
  if cfg.maxRetryAttempts ≤ i.retryCount then
    updateQueueItemStatus env s i.id .failed (some "Max retry attempts exceeded")
  else
    match updateQueueItemStatus env s i.id .syncing none with
    | .err s1 m => innerFail env i s1 m
    | .ok s1 =>
      match processSyncItem env i s1 with
      | .err s2 m => innerFail env i s2 m
      | .ok s2 =>
        match updateQueueItemStatus env s2 i.id .completed none with
        | .err s3 m => innerFail env i s3 m
        | .ok s3 =>
          match deleteQueueItem env s3 i.id with
          | .err s4 m => innerFail env i s4 m
          | .ok s4 => .ok s4

/-- Drain loop of syncAll over the snapshot of pending items; a rejection
that escapes a step aborts the loop (it is caught by the outer catch). -/
def drainLoop (env : SyncEnv) (cfg : SyncConfig) (items : List QueueItem)
    (s : ServiceState) : StoreResult :=
  match items with
  | [] => .ok s
  | i :: rest =>
    match drainStep env cfg s i with
    | .ok s1 => drainLoop env cfg rest s1
    | .err s1 m => .err s1 m

/-- downloadServerData: pull the first page (1, 100) of orders, customers
and products and put each record locally; all errors are caught and logged
inside this function, so it never rejects. -/
def downloadServerData (env : SyncEnv) (s : ServiceState) : ServiceState :=
  let c1 := RemoteCall.getOrders 1 100
  let s1 := { s with remoteTrace := s.remoteTrace ++ [c1] }
  if env.callOk c1 then
    let s2 := { s1 with orders := (env.serverOrders.foldl upsertOrder s1.orders) }
    let c2 := RemoteCall.getCustomers 1 100
    let s3 := { s2 with remoteTrace := s2.remoteTrace ++ [c2] }
    if env.callOk c2 then
      let s4 := { s3 with customers := (env.serverCustomers.foldl upsertCustomer s3.customers) }
      let c3 := RemoteCall.getProducts 1 100
      let s5 := { s4 with remoteTrace := s4.remoteTrace ++ [c3] }
      if env.callOk c3 then
        { s5 with products := (env.serverProducts.foldl upsertProduct s5.products) }
      else s5
    else s3
  else s1

/-- Try block of syncAll: read the pending snapshot, drain it, then
refresh; a rejection of the snapshot read, or one escaping a drain step,
is caught by the outer catch, which skips the refresh. -/
def syncBody (env : SyncEnv) (cfg : SyncConfig) (s1 : ServiceState) : ServiceState :=
  if env.readPendingOk then
    match drainLoop env cfg (getPendingQueueItems s1.queue) s1 with
    | .ok sd => downloadServerData env sd
    | .err sd _ => sd
  else s1

/-- syncAll: no-op when offline or already syncing; otherwise set the
syncing flag, broadcast, run the try block (whose drain and refresh errors
are caught), and in the finally block clear the flag and broadcast. -/
def syncAll (env : SyncEnv) (cfg : SyncConfig) (s : ServiceState) : ServiceState :=
  if !s.isOnline || s.syncInProgress then s
  else
    let s1 := notify { s with syncInProgress := true }
    notify { syncBody env cfg s1 with syncInProgress := false }

/-- Last four characters of the decimal representation of the timestamp
(String(timestamp).slice(-4)). -/
def lastFour (ts : Nat) : String :=
  let str := toString ts
  str.drop (str.length - 4)

/-- Local order number synthesized by createOfflineOrder. -/
def offlineOrderNumber (ts : Nat) (today : String) : String :=
  "LOCAL-" ++ (today.replace "-" "") ++ "-" ++ lastFour ts

/-- Line items computed by createOfflineOrder: per line, the subtotal is
quantity times unitPrice minus the percentage discount. -/
def offlineOrderItems (ts : Nat) (draft : OrderDraft) : List OrderItem :=
  draft.items.enum.map (fun p =>
    let subtotalBeforeDiscount := p.2.quantity * p.2.unitPrice
    let discountAmount := subtotalBeforeDiscount * (p.2.discount.getD 0) / 100
    let subtotal := subtotalBeforeDiscount - discountAmount
    { id := "item-" ++ toString ts ++ "-" ++ toString p.1,
      productId := p.2.productId, productName := p.2.productName,
      productImage := p.2.productImage, quantity := p.2.quantity,
      unitPrice := p.2.unitPrice, discount := (p.2.discount.getD 0),
      subtotal := subtotal : OrderItem })

/-- Order record built by createOfflineOrder: subtotal of the lines, 15
percent tax on top, total, and a pending syncStatus. -/
def offlineOrderOf (ts : Nat) (today nowIso : String) (draft : OrderDraft) : Order :=
  let items := offlineOrderItems ts draft
  let subtotal := items.foldl (fun acc it => acc + it.subtotal) 0
  let tax := subtotal * 0.15
  let total := subtotal + tax
  { id := "offline-" ++ toString ts, orderNumber := offlineOrderNumber ts today,
    customerId := draft.customerId, customerName := draft.customerName,
    date := today, status := "pending", items := items,
    subtotal := subtotal, tax := tax, total := total,
    salespersonId := (draft.salespersonId.getD ""),
    salespersonName := (draft.salespersonName.getD ""),
    deliveryAddress := draft.deliveryAddress, notes := draft.notes,
    createdAt := nowIso, updatedAt := nowIso, syncStatus := "pending" }

/-- Queue mutation enqueued by createOfflineOrder: a create of the order
entity whose payload is the draft spread together with the local order id
and the local order number. -/
def offlineQueueMutation (ts : Nat) (today : String) (draft : OrderDraft) : Mutation :=
  { type := .order, action := .create,
    data := { draft := some draft, localOrderId := some ("offline-" ++ toString ts),
              localOrderNumber := some (offlineOrderNumber ts today), entityId := none } }

/-- createOfflineOrder: synthesize a local id and order number, compute the
line subtotals, the order subtotal, 15 percent tax and the total, save the
order locally with a pending syncStatus, and enqueue a create queue item
whose payload is the draft extended with the local id and number.  The
current time (ts) and the date strings are inputs from the clock. -/
def createOfflineOrder (ts : Nat) (today nowIso : String) (draft : OrderDraft)
    (s : ServiceState) : Order × ServiceState :=
  let offlineOrder := offlineOrderOf ts today nowIso draft
  let s1 := saveOrderLocally s offlineOrder
  let s2 := addToSyncQueue ts (offlineQueueMutation ts today draft) s1
  (offlineOrder, s2)

/-- getSyncStatus: the online flag, a hardcoded null last-sync time, the
number of pending queue items, and the syncing flag. -/
def getSyncStatus (s : ServiceState) : SyncStatusR :=
  { isOnline := s.isOnline, lastSyncTime := none,
    pendingItems := (getPendingQueueItems s.queue).length,
    isSyncing := s.syncInProgress }

/-- Public operations of the service, including the network listener
transitions (the online listener sets the flag, notifies and syncs). -/
inductive ServiceOp where
  | saveOrder (o : Order)
  | removeOrder (oid : String)
  | saveCustomer (c : Customer)
  | saveProduct (p : Product)
  | createOffline (ts : Nat) (today nowIso : String) (draft : OrderDraft)
  | enqueue (now : Nat) (m : Mutation)
  | updateStatus (iid : Nat) (st : QStatus) (msg : Option String)
  | removeItem (iid : Nat)
  | sync
  | goOnline
  | goOffline

/-- Apply one public operation to the state. -/
def applyOp (env : SyncEnv) (cfg : SyncConfig) (op : ServiceOp)
    (s : ServiceState) : ServiceState :=
  match op with
  | .saveOrder o => saveOrderLocally s o
  | .removeOrder oid => deleteLocalOrder s oid
  | .saveCustomer c => saveCustomerLocally s c
  | .saveProduct p => saveProductLocally s p
  | .createOffline ts today nowIso draft => (createOfflineOrder ts today nowIso draft s).2
  | .enqueue now m => addToSyncQueue now m s
  | .updateStatus iid st msg => (updateQueueItemStatus env s iid st msg).state
  | .removeItem iid => (deleteQueueItem env s iid).state
  | .sync => syncAll env cfg s
  | .goOnline => syncAll env cfg (notify { s with isOnline := true })
  | .goOffline => notify { s with isOnline := false }

/-- Apply a sequence of public operations in order. -/
def applyOps (env : SyncEnv) (cfg : SyncConfig) (ops : List ServiceOp)
    (s : ServiceState) : ServiceState :=
  ops.foldl (fun st op => applyOp env cfg op st) s

/-- Queue ids are pairwise distinct and below the autoincrement counter:
the invariant the autoincrement key of the queue store maintains. -/
def WF (s : ServiceState) : Prop :=
  (s.queue.map (fun j => j.id)).Nodup ∧ ∀ j ∈ s.queue, j.id < s.nextQueueId

/-- Storage reliability assumption: every IndexedDB request of the drain
succeeds (remote calls may still fail arbitrarily). -/
def StorageReliable (env : SyncEnv) : Prop :=
  env.readPendingOk = true ∧ (∀ i st, env.updateOk i st = true) ∧
    ∀ i, env.deleteOk i = true

/-! Helper lemmas about key lookup in the queue store. -/

theorem findItem_nil (iid : Nat) : findItem [] iid = none := rfl

theorem findItem_cons (a : QueueItem) (t : List QueueItem) (iid : Nat) :
    findItem (a :: t) iid = if a.id = iid then some a else findItem t iid := by
  unfold findItem
  rw [List.find?_cons]
  by_cases h : a.id = iid
  · have hb : (a.id == iid) = true := by simp [h]
    simp [hb, h]
  · have hb : (a.id == iid) = false := by simp [h]
    simp [hb, h]

theorem findItem_mem {q : List QueueItem} {iid : Nat} {j : QueueItem}
    (h : findItem q iid = some j) : j ∈ q ∧ j.id = iid := by
  refine ⟨List.mem_of_find?_eq_some h, ?_⟩
  have := List.find?_some h
  simpa using this

theorem findItem_eq_none {q : List QueueItem} {iid : Nat} :
    findItem q iid = none ↔ ∀ j ∈ q, j.id ≠ iid := by
  unfold findItem
  rw [List.find?_eq_none]
  simp

theorem findItem_of_mem_nodup {q : List QueueItem}
    (hn : (q.map (fun j => j.id)).Nodup) {i : QueueItem} (hi : i ∈ q) :
    findItem q i.id = some i := by
  induction q with
  | nil => cases hi
  | cons a t ih =>
      rw [findItem_cons]
      rcases List.mem_cons.mp hi with h | h
      · subst h; simp
      · have hne : a.id ≠ i.id := by
          intro he
          have : a.id ∈ t.map (fun j => j.id) := by
            exact List.mem_map.mpr ⟨i, h, he.symm⟩
          exact (List.nodup_cons.mp hn).1 this
        rw [if_neg hne]
        exact ih (List.nodup_cons.mp hn).2 h

theorem updFn_id (iid : Nat) (st : QStatus) (msg : Option String) (j : QueueItem) :
    (updFn iid st msg j).id = j.id := by
  unfold updFn
  split <;> rfl

theorem findItem_updQueue (q : List QueueItem) (iid : Nat) (st : QStatus)
    (msg : Option String) (iid2 : Nat) :
    findItem (updQueue q iid st msg) iid2 = (findItem q iid2).map (updFn iid st msg) := by
  induction q with
  | nil => rfl
  | cons a t ih =>
      show findItem (updFn iid st msg a :: updQueue t iid st msg) iid2 = _
      rw [findItem_cons, findItem_cons, updFn_id]
      by_cases h : a.id = iid2
      · simp [h]
      · simp only [h, if_false]
        exact ih

theorem findItem_filterNe (q : List QueueItem) (iid iid2 : Nat) :
    findItem (q.filter (fun j => j.id != iid)) iid2 =
      if iid2 = iid then none else findItem q iid2 := by
  induction q with
  | nil => simp [findItem_nil]
  | cons a t ih =>
      by_cases hk : a.id = iid
      · rw [List.filter_cons_of_neg (by simp [hk]), ih, findItem_cons]
        by_cases h2 : iid2 = iid
        · simp [h2]
        · have : a.id ≠ iid2 := by rw [hk]; exact fun he => h2 he.symm
          simp [this, h2]
      · rw [List.filter_cons_of_pos (by simp [hk]), findItem_cons, findItem_cons, ih]
        by_cases h2 : a.id = iid2
        · have : iid2 ≠ iid := by rw [← h2]; exact hk
          simp [h2, this]
        · simp [h2]

theorem findItem_append_of_some {q : List QueueItem} {iid : Nat} {j : QueueItem}
    (h : findItem q iid = some j) (l : List QueueItem) :
    findItem (q ++ l) iid = some j := by
  induction q with
  | nil => simp [findItem_nil] at h
  | cons a t ih =>
      rw [findItem_cons] at h
      rw [List.cons_append, findItem_cons]
      by_cases ha : a.id = iid
      · rw [if_pos ha] at h ⊢; exact h
      · rw [if_neg ha] at h ⊢; exact ih h

theorem findItem_append_of_none {q : List QueueItem} {iid : Nat}
    (h : findItem q iid = none) (l : List QueueItem) :
    findItem (q ++ l) iid = findItem l iid := by
  induction q with
  | nil => rfl
  | cons a t ih =>
      rw [findItem_cons] at h
      rw [List.cons_append, findItem_cons]
      by_cases ha : a.id = iid
      · rw [if_pos ha] at h; cases h
      · rw [if_neg ha] at h ⊢; exact ih h

/-! Frame of the drain: everything the drain loop leaves untouched. -/

/-- Components untouched by the drain loop: the three record collections,
both flags and the autoincrement counter. -/
def EngineFrame (s s1 : ServiceState) : Prop :=
  s1.orders = s.orders ∧ s1.customers = s.customers ∧ s1.products = s.products ∧
  s1.isOnline = s.isOnline ∧ s1.syncInProgress = s.syncInProgress ∧
  s1.nextQueueId = s.nextQueueId

theorem engineFrame_refl (s : ServiceState) : EngineFrame s s :=
  ⟨rfl, rfl, rfl, rfl, rfl, rfl⟩

theorem engineFrame_trans {s s1 s2 : ServiceState}
    (h1 : EngineFrame s s1) (h2 : EngineFrame s1 s2) : EngineFrame s s2 := by
  obtain ⟨a1, b1, c1, d1, e1, f1⟩ := h1
  obtain ⟨a2, b2, c2, d2, e2, f2⟩ := h2
  exact ⟨a2.trans a1, b2.trans b1, c2.trans c1, d2.trans d1, e2.trans e1, f2.trans f1⟩

/-! Evolution relation: how retryCount changes across any operation. -/

/-- Events appended between two states. -/
def eventsDelta (s s1 : ServiceState) : List (Nat × QStatus) :=
  s1.events.drop s.events.length

/-- Number of logged transitions of the given item to status failed. -/
def failedCount (iid : Nat) (l : List (Nat × QStatus)) : Nat :=
  (l.filter (fun e => e.1 == iid && e.2 == QStatus.failed)).length

theorem failedCount_append (iid : Nat) (l1 l2 : List (Nat × QStatus)) :
    failedCount iid (l1 ++ l2) = failedCount iid l1 + failedCount iid l2 := by
  unfold failedCount
  rw [List.filter_append, List.length_append]

/-- Evolution invariant between a state and a later state: events only
accumulate, the autoincrement counter only grows, an old id present later
was present before (keys are never reused), and the retryCount of a
surviving item grows by exactly the number of its logged transitions to
failed.  This packages the claim that retryCount increments exactly on a
status write of failed and at no other time. -/
structure Evol (s s1 : ServiceState) : Prop where
  events_ext : s1.events = s.events ++ eventsDelta s s1
  next_mono : s.nextQueueId ≤ s1.nextQueueId
  old_present : ∀ iid, iid < s.nextQueueId → ∀ j1, findItem s1.queue iid = some j1 →
      ∃ j, findItem s.queue iid = some j
  retry_eq : ∀ iid j j1, findItem s.queue iid = some j → findItem s1.queue iid = some j1 →
      j1.retryCount = j.retryCount + failedCount iid (eventsDelta s s1)

theorem evol_of_untouched {s s1 : ServiceState} (hq : s1.queue = s.queue)
    (he : s1.events = s.events) (hn : s1.nextQueueId = s.nextQueueId) : Evol s s1 := by
  have hd : eventsDelta s s1 = [] := by
    unfold eventsDelta
    rw [he, List.drop_length]
  refine ⟨?_, ?_, ?_, ?_⟩
  · rw [hd, he, List.append_nil]
  · exact le_of_eq hn.symm
  · intro iid _ j1 h1
    rw [hq] at h1
    exact ⟨j1, h1⟩
  · intro iid j j1 hj hj1
    rw [hq] at hj1
    rw [hj] at hj1
    cases hj1
    rw [hd]
    simp [failedCount]

theorem evol_refl (s : ServiceState) : Evol s s :=
  evol_of_untouched rfl rfl rfl

theorem evol_trans {s s1 s2 : ServiceState}
    (hb : ∀ j ∈ s.queue, j.id < s.nextQueueId)
    (h1 : Evol s s1) (h2 : Evol s1 s2) : Evol s s2 := by
  have h22 : s2.events = s.events ++ (eventsDelta s s1 ++ eventsDelta s1 s2) := by
    rw [h2.events_ext, h1.events_ext, List.append_assoc]
  have hd : eventsDelta s s2 = eventsDelta s s1 ++ eventsDelta s1 s2 := by
    show s2.events.drop s.events.length = _
    rw [h22, List.drop_left]
  refine ⟨?_, h1.next_mono.trans h2.next_mono, ?_, ?_⟩
  · rw [hd]; exact h22
  · intro iid hlt j2 hf2
    obtain ⟨j1, hf1⟩ := h2.old_present iid (lt_of_lt_of_le hlt h1.next_mono) j2 hf2
    exact h1.old_present iid hlt j1 hf1
  · intro iid j j2 hj hj2
    have hjm := findItem_mem hj
    have hlt : iid < s.nextQueueId := by
      rw [← hjm.2]; exact hb j hjm.1
    obtain ⟨j1, hf1⟩ := h2.old_present iid (lt_of_lt_of_le hlt h1.next_mono) j2 hj2
    have e1 := h1.retry_eq iid j j1 hj hf1
    have e2 := h2.retry_eq iid j1 j2 hf1 hj2
    rw [hd, failedCount_append, e2, e1, Nat.add_assoc]

/-- WF transport along equal queue and counter. -/
theorem wf_congr {s s1 : ServiceState} (hq : s1.queue = s.queue)
    (hn : s1.nextQueueId = s.nextQueueId) (hwf : WF s) : WF s1 := by
  obtain ⟨h1, h2⟩ := hwf
  exact ⟨by rw [hq]; exact h1, by rw [hq, hn]; exact h2⟩

theorem updQueue_map_id (q : List QueueItem) (iid : Nat) (st : QStatus)
    (msg : Option String) :
    (updQueue q iid st msg).map (fun j => j.id) = q.map (fun j => j.id) := by
  unfold updQueue
  rw [List.map_map]
  have : ((fun j : QueueItem => j.id) ∘ updFn iid st msg) = fun j => j.id := by
    funext j
    exact updFn_id iid st msg j
  rw [this]

theorem wf_update (env : SyncEnv) (s : ServiceState) (iid : Nat) (st : QStatus)
    (msg : Option String) (hwf : WF s) :
    WF (updateQueueItemStatus env s iid st msg).state := by
  unfold updateQueueItemStatus
  by_cases hok : env.updateOk iid st
  · rw [if_pos hok]
    cases hf : findItem s.queue iid with
    | none => exact hwf
    | some j0 =>
        refine ⟨?_, ?_⟩
        · show ((updQueue s.queue iid st msg).map (fun j => j.id)).Nodup
          rw [updQueue_map_id]
          exact hwf.1
        · intro j hj
          obtain ⟨j0m, hm, he⟩ := List.mem_map.mp hj
          have : j.id = j0m.id := by rw [← he]; exact updFn_id iid st msg j0m
          rw [this]
          exact hwf.2 j0m hm
  · rw [if_neg hok]
    exact hwf

theorem wf_delete (env : SyncEnv) (s : ServiceState) (iid : Nat) (hwf : WF s) :
    WF (deleteQueueItem env s iid).state := by
  unfold deleteQueueItem
  by_cases hok : env.deleteOk iid
  · rw [if_pos hok]
    refine ⟨?_, ?_⟩
    · exact hwf.1.sublist ((List.filter_sublist s.queue).map (fun j => j.id))
    · intro j hj
      exact hwf.2 j (List.mem_of_mem_filter hj)
  · rw [if_neg hok]
    exact hwf

theorem wf_process (env : SyncEnv) (i : QueueItem) (s : ServiceState) (hwf : WF s) :
    WF (processSyncItem env i s).state := by
  unfold processSyncItem
  cases dispatchCall i with
  | none => exact hwf
  | some c =>
      dsimp only
      by_cases hok : env.callOk c
      · rw [if_pos hok]; exact wf_congr rfl rfl hwf
      · rw [if_neg hok]; exact wf_congr rfl rfl hwf

theorem wf_append_fresh {s : ServiceState} (hwf : WF s) (it : QueueItem)
    (hid : it.id = s.nextQueueId) {s1 : ServiceState}
    (hq : s1.queue = s.queue ++ [it]) (hn : s1.nextQueueId = s.nextQueueId + 1) :
    WF s1 := by
  refine ⟨?_, ?_⟩
  · rw [hq, List.map_append, List.nodup_append]
    refine ⟨hwf.1, List.nodup_singleton _, ?_⟩
    intro x hx hx2
    simp only [List.map_cons, List.map_nil, List.mem_singleton] at hx2
    obtain ⟨j, hj, hje⟩ := List.mem_map.mp hx
    have hlt := hwf.2 j hj
    rw [hje, hx2, hid] at hlt
    exact lt_irrefl _ hlt
  · intro j hj
    rw [hq] at hj
    rw [hn]
    rcases List.mem_append.mp hj with h | h
    · exact Nat.lt_succ_of_lt (hwf.2 j h)
    · simp only [List.mem_singleton] at h
      rw [h, hid]
      exact Nat.lt_succ_self _

theorem wf_add (now : Nat) (m : Mutation) (s : ServiceState) (hwf : WF s) :
    WF (addToSyncQueue now m s) :=
  wf_append_fresh hwf
    { id := s.nextQueueId, type := m.type, action := m.action, data := m.data,
      timestamp := now, retryCount := 0, status := .pending, error := none }
    rfl rfl rfl

theorem retry_updFn (iid : Nat) (st : QStatus) (msg : Option String) (j : QueueItem) :
    (updFn iid st msg j).retryCount = j.retryCount + failedCount j.id [(iid, st)] := by
  unfold updFn failedCount
  by_cases h : j.id = iid
  · by_cases h2 : st = QStatus.failed
    · simp [h, h2]
    · simp [h, h2]
  · have hne : iid ≠ j.id := fun he => h he.symm
    simp [h, hne]

theorem evol_of_upd {s s1 : ServiceState} (iid : Nat) (st : QStatus) (msg : Option String)
    (hq : s1.queue = updQueue s.queue iid st msg)
    (he : s1.events = s.events ++ [(iid, st)])
    (hn : s1.nextQueueId = s.nextQueueId) : Evol s s1 := by
  have hd : eventsDelta s s1 = [(iid, st)] := by
    show s1.events.drop s.events.length = _
    rw [he, List.drop_left]
  refine ⟨?_, le_of_eq hn.symm, ?_, ?_⟩
  · rw [hd]; exact he
  · intro iid2 _ j1 h1
    rw [hq, findItem_updQueue] at h1
    cases hmap : findItem s.queue iid2 with
    | none => rw [hmap] at h1; cases h1
    | some j => exact ⟨j, rfl⟩
  · intro iid2 j j1 hj hj1
    rw [hq, findItem_updQueue, hj] at hj1
    cases hj1
    rw [hd, ← (findItem_mem hj).2]
    exact retry_updFn iid st msg j

theorem evol_update (env : SyncEnv) (s : ServiceState) (iid : Nat) (st : QStatus)
    (msg : Option String) :
    Evol s (updateQueueItemStatus env s iid st msg).state := by
  unfold updateQueueItemStatus
  by_cases hok : env.updateOk iid st
  · rw [if_pos hok]
    cases hf : findItem s.queue iid with
    | none => exact evol_refl s
    | some j0 => exact evol_of_upd iid st msg rfl rfl rfl
  · rw [if_neg hok]
    exact evol_refl s

theorem evol_of_del {s s1 : ServiceState} (iid : Nat)
    (hq : s1.queue = s.queue.filter (fun j => j.id != iid))
    (he : s1.events = s.events)
    (hn : s1.nextQueueId = s.nextQueueId) : Evol s s1 := by
  have hd : eventsDelta s s1 = [] := by
    show s1.events.drop s.events.length = _
    rw [he, List.drop_length]
  refine ⟨?_, le_of_eq hn.symm, ?_, ?_⟩
  · rw [hd, he, List.append_nil]
  · intro iid2 _ j1 h1
    rw [hq, findItem_filterNe] at h1
    by_cases h2 : iid2 = iid
    · rw [if_pos h2] at h1; cases h1
    · rw [if_neg h2] at h1; exact ⟨j1, h1⟩
  · intro iid2 j j1 hj hj1
    rw [hq, findItem_filterNe] at hj1
    by_cases h2 : iid2 = iid
    · rw [if_pos h2] at hj1; cases hj1
    · rw [if_neg h2, hj] at hj1
      cases hj1
      rw [hd]
      simp [failedCount]

theorem evol_delete (env : SyncEnv) (s : ServiceState) (iid : Nat) :
    Evol s (deleteQueueItem env s iid).state := by
  unfold deleteQueueItem
  by_cases hok : env.deleteOk iid
  · rw [if_pos hok]
    exact evol_of_del iid rfl rfl rfl
  · rw [if_neg hok]
    exact evol_refl s

theorem evol_process (env : SyncEnv) (i : QueueItem) (s : ServiceState) :
    Evol s (processSyncItem env i s).state := by
  unfold processSyncItem
  cases dispatchCall i with
  | none => exact evol_refl s
  | some c =>
      dsimp only
      by_cases hok : env.callOk c
      · rw [if_pos hok]; exact evol_of_untouched rfl rfl rfl
      · rw [if_neg hok]; exact evol_of_untouched rfl rfl rfl

theorem evol_append_fresh {s s1 : ServiceState} (it : QueueItem)
    (hid : it.id = s.nextQueueId)
    (hq : s1.queue = s.queue ++ [it])
    (he : s1.events = s.events)
    (hn : s1.nextQueueId = s.nextQueueId + 1) : Evol s s1 := by
  have hd : eventsDelta s s1 = [] := by
    show s1.events.drop s.events.length = _
    rw [he, List.drop_length]
  refine ⟨?_, ?_, ?_, ?_⟩
  · rw [hd, he, List.append_nil]
  · rw [hn]; exact Nat.le_succ _
  · intro iid hlt j1 h1
    rw [hq] at h1
    cases hfq : findItem s.queue iid with
    | some j => exact ⟨j, rfl⟩
    | none =>
        rw [findItem_append_of_none hfq] at h1
        rw [findItem_cons] at h1
        have : it.id ≠ iid := by
          rw [hid]; exact fun h => absurd (h ▸ hlt) (lt_irrefl _)
        rw [if_neg this] at h1
        cases h1
  · intro iid j j1 hj hj1
    rw [hq, findItem_append_of_some hj] at hj1
    cases hj1
    rw [hd]
    simp [failedCount]

theorem evol_add (now : Nat) (m : Mutation) (s : ServiceState) :
    Evol s (addToSyncQueue now m s) :=
  evol_append_fresh
    { id := s.nextQueueId, type := m.type, action := m.action, data := m.data,
      timestamp := now, retryCount := 0, status := .pending, error := none }
    rfl rfl rfl rfl

/-- Remote calls issued by the refresh phase: getOrders is always
attempted; each later fetch happens only when the earlier ones succeeded
(the internal catch stops the sequence). -/
def refreshCalls (env : SyncEnv) : List RemoteCall :=
  let c1 := RemoteCall.getOrders 1 100
  if env.callOk c1 then
    let c2 := RemoteCall.getCustomers 1 100
    if env.callOk c2 then [c1, c2, RemoteCall.getProducts 1 100] else [c1, c2]
  else [c1]

theorem download_frame (env : SyncEnv) (s : ServiceState) :
    (downloadServerData env s).queue = s.queue ∧
    (downloadServerData env s).events = s.events ∧
    (downloadServerData env s).nextQueueId = s.nextQueueId ∧
    (downloadServerData env s).isOnline = s.isOnline ∧
    (downloadServerData env s).syncInProgress = s.syncInProgress ∧
    (downloadServerData env s).broadcasts = s.broadcasts ∧
    (downloadServerData env s).remoteTrace = s.remoteTrace ++ refreshCalls env := by
  unfold downloadServerData refreshCalls
  by_cases h1 : env.callOk (RemoteCall.getOrders 1 100)
  · rw [if_pos h1, if_pos h1]
    by_cases h2 : env.callOk (RemoteCall.getCustomers 1 100)
    · rw [if_pos h2, if_pos h2]
      by_cases h3 : env.callOk (RemoteCall.getProducts 1 100)
      · rw [if_pos h3]
        refine ⟨rfl, rfl, rfl, rfl, rfl, rfl, ?_⟩
        simp
      · rw [if_neg h3]
        refine ⟨rfl, rfl, rfl, rfl, rfl, rfl, ?_⟩
        simp
    · rw [if_neg h2, if_neg h2]
      refine ⟨rfl, rfl, rfl, rfl, rfl, rfl, ?_⟩
      simp
  · rw [if_neg h1, if_neg h1]
    exact ⟨rfl, rfl, rfl, rfl, rfl, rfl, rfl⟩

theorem evol_download (env : SyncEnv) (s : ServiceState) :
    Evol s (downloadServerData env s) := by
  obtain ⟨hq, he, hn, _⟩ := download_frame env s
  exact evol_of_untouched hq he hn

theorem wf_download (env : SyncEnv) (s : ServiceState) (hwf : WF s) :
    WF (downloadServerData env s) := by
  obtain ⟨hq, _, hn, _⟩ := download_frame env s
  exact wf_congr hq hn hwf

theorem evol_wf_drainStep (env : SyncEnv) (cfg : SyncConfig) (s : ServiceState)
    (i : QueueItem) (hwf : WF s) :
    Evol s (drainStep env cfg s i).state ∧ WF (drainStep env cfg s i).state := by
  unfold drainStep
  by_cases hmax : cfg.maxRetryAttempts ≤ i.retryCount
  · rw [if_pos hmax]
    exact ⟨evol_update env s i.id .failed (some "Max retry attempts exceeded"),
           wf_update env s i.id .failed (some "Max retry attempts exceeded") hwf⟩
  · rw [if_neg hmax]
    cases h1 : updateQueueItemStatus env s i.id .syncing none with
    | err s1 m =>
        have e1 : Evol s s1 := by
          have h := evol_update env s i.id .syncing none; rw [h1] at h; exact h
        have w1 : WF s1 := by
          have h := wf_update env s i.id .syncing none hwf; rw [h1] at h; exact h
        dsimp only
        unfold innerFail
        exact ⟨evol_trans hwf.2 e1 (evol_update env s1 i.id .failed (some m)),
               wf_update env s1 i.id .failed (some m) w1⟩
    | ok s1 =>
        have e1 : Evol s s1 := by
          have h := evol_update env s i.id .syncing none; rw [h1] at h; exact h
        have w1 : WF s1 := by
          have h := wf_update env s i.id .syncing none hwf; rw [h1] at h; exact h
        dsimp only
        cases h2 : processSyncItem env i s1 with
        | err s2 m =>
            have e2 : Evol s1 s2 := by
              have h := evol_process env i s1; rw [h2] at h; exact h
            have w2 : WF s2 := by
              have h := wf_process env i s1 w1; rw [h2] at h; exact h
            dsimp only
            unfold innerFail
            exact ⟨evol_trans hwf.2 e1 (evol_trans w1.2 e2
                    (evol_update env s2 i.id .failed (some m))),
                   wf_update env s2 i.id .failed (some m) w2⟩
        | ok s2 =>
            have e2 : Evol s1 s2 := by
              have h := evol_process env i s1; rw [h2] at h; exact h
            have w2 : WF s2 := by
              have h := wf_process env i s1 w1; rw [h2] at h; exact h
            dsimp only
            cases h3 : updateQueueItemStatus env s2 i.id .completed none with
            | err s3 m =>
                have e3 : Evol s2 s3 := by
                  have h := evol_update env s2 i.id .completed none; rw [h3] at h; exact h
                have w3 : WF s3 := by
                  have h := wf_update env s2 i.id .completed none w2; rw [h3] at h; exact h
                dsimp only
                unfold innerFail
                exact ⟨evol_trans hwf.2 e1 (evol_trans w1.2 e2 (evol_trans w2.2 e3
                        (evol_update env s3 i.id .failed (some m)))),
                       wf_update env s3 i.id .failed (some m) w3⟩
            | ok s3 =>
                have e3 : Evol s2 s3 := by
                  have h := evol_update env s2 i.id .completed none; rw [h3] at h; exact h
                have w3 : WF s3 := by
                  have h := wf_update env s2 i.id .completed none w2; rw [h3] at h; exact h
                dsimp only
                cases h4 : deleteQueueItem env s3 i.id with
                | err s4 m =>
                    have e4 : Evol s3 s4 := by
                      have h := evol_delete env s3 i.id; rw [h4] at h; exact h
                    have w4 : WF s4 := by
                      have h := wf_delete env s3 i.id w3; rw [h4] at h; exact h
                    dsimp only
                    unfold innerFail
                    exact ⟨evol_trans hwf.2 e1 (evol_trans w1.2 e2 (evol_trans w2.2 e3
                            (evol_trans w3.2 e4
                              (evol_update env s4 i.id .failed (some m))))),
                           wf_update env s4 i.id .failed (some m) w4⟩
                | ok s4 =>
                    have e4 : Evol s3 s4 := by
                      have h := evol_delete env s3 i.id; rw [h4] at h; exact h
                    have w4 : WF s4 := by
                      have h := wf_delete env s3 i.id w3; rw [h4] at h; exact h
                    dsimp only
                    exact ⟨evol_trans hwf.2 e1 (evol_trans w1.2 e2
                            (evol_trans w2.2 e3 (evol_trans w3.2 e4 (evol_refl s4)))),
                           w4⟩

theorem evol_wf_drainLoop (env : SyncEnv) (cfg : SyncConfig) (items : List QueueItem) :
    ∀ s : ServiceState, WF s →
      Evol s (drainLoop env cfg items s).state ∧ WF (drainLoop env cfg items s).state := by
  induction items with
  | nil => intro s hwf; exact ⟨evol_refl s, hwf⟩
  | cons i rest ih =>
      intro s hwf
      simp only [drainLoop]
      cases hs : drainStep env cfg s i with
      | ok s1 =>
          have hstep := evol_wf_drainStep env cfg s i hwf
          rw [hs] at hstep
          obtain ⟨e1, w1⟩ := hstep
          obtain ⟨e2, w2⟩ := ih s1 w1
          exact ⟨evol_trans hwf.2 e1 e2, w2⟩
      | err s1 m =>
          have hstep := evol_wf_drainStep env cfg s i hwf
          rw [hs] at hstep
          exact hstep

theorem evol_wf_syncBody (env : SyncEnv) (cfg : SyncConfig) (s : ServiceState)
    (hwf : WF s) :
    Evol s (syncBody env cfg s) ∧ WF (syncBody env cfg s) := by
  unfold syncBody
  by_cases hr : env.readPendingOk
  · rw [if_pos hr]
    cases hd : drainLoop env cfg (getPendingQueueItems s.queue) s with
    | ok sd =>
        have hloop := evol_wf_drainLoop env cfg (getPendingQueueItems s.queue) s hwf
        rw [hd] at hloop
        obtain ⟨e2, w2⟩ := hloop
        exact ⟨evol_trans hwf.2 e2 (evol_download env sd), wf_download env sd w2⟩
    | err sd m =>
        have hloop := evol_wf_drainLoop env cfg (getPendingQueueItems s.queue) s hwf
        rw [hd] at hloop
        exact hloop
  · rw [if_neg hr]
    exact ⟨evol_refl s, hwf⟩

theorem evol_wf_syncAll (env : SyncEnv) (cfg : SyncConfig) (s : ServiceState)
    (hwf : WF s) :
    Evol s (syncAll env cfg s) ∧ WF (syncAll env cfg s) := by
  unfold syncAll
  by_cases hguard : (!s.isOnline || s.syncInProgress) = true
  · rw [if_pos hguard]
    exact ⟨evol_refl s, hwf⟩
  · rw [if_neg hguard]
    have w1 : WF (notify { s with syncInProgress := true }) := wf_congr rfl rfl hwf
    have e1 : Evol s (notify { s with syncInProgress := true }) :=
      evol_of_untouched rfl rfl rfl
    obtain ⟨e2, w2⟩ := evol_wf_syncBody env cfg (notify { s with syncInProgress := true }) w1
    refine ⟨?_, wf_congr rfl rfl w2⟩
    exact evol_trans hwf.2 e1 (evol_trans w1.2 e2 (evol_of_untouched rfl rfl rfl))

theorem evol_wf_applyOp (env : SyncEnv) (cfg : SyncConfig) (op : ServiceOp)
    (s : ServiceState) (hwf : WF s) :
    Evol s (applyOp env cfg op s) ∧ WF (applyOp env cfg op s) := by
  cases op with
  | saveOrder o => exact ⟨evol_of_untouched rfl rfl rfl, wf_congr rfl rfl hwf⟩
  | removeOrder oid => exact ⟨evol_of_untouched rfl rfl rfl, wf_congr rfl rfl hwf⟩
  | saveCustomer c => exact ⟨evol_of_untouched rfl rfl rfl, wf_congr rfl rfl hwf⟩
  | saveProduct p => exact ⟨evol_of_untouched rfl rfl rfl, wf_congr rfl rfl hwf⟩
  | createOffline ts today nowIso draft =>
      have wsave : WF (saveOrderLocally s (offlineOrderOf ts today nowIso draft)) :=
        wf_congr rfl rfl hwf
      have esave : Evol s (saveOrderLocally s (offlineOrderOf ts today nowIso draft)) :=
        evol_of_untouched rfl rfl rfl
      exact ⟨evol_trans hwf.2 esave
              (evol_add ts (offlineQueueMutation ts today draft)
                (saveOrderLocally s (offlineOrderOf ts today nowIso draft))),
             wf_add ts (offlineQueueMutation ts today draft)
               (saveOrderLocally s (offlineOrderOf ts today nowIso draft)) wsave⟩
  | enqueue now m => exact ⟨evol_add now m s, wf_add now m s hwf⟩
  | updateStatus iid st msg =>
      exact ⟨evol_update env s iid st msg, wf_update env s iid st msg hwf⟩
  | removeItem iid => exact ⟨evol_delete env s iid, wf_delete env s iid hwf⟩
  | sync => exact evol_wf_syncAll env cfg s hwf
  | goOnline =>
      have w1 : WF (notify { s with isOnline := true }) := wf_congr rfl rfl hwf
      have e1 : Evol s (notify { s with isOnline := true }) :=
        evol_of_untouched rfl rfl rfl
      obtain ⟨e2, w2⟩ := evol_wf_syncAll env cfg (notify { s with isOnline := true }) w1
      exact ⟨evol_trans hwf.2 e1 e2, w2⟩
  | goOffline => exact ⟨evol_of_untouched rfl rfl rfl, wf_congr rfl rfl hwf⟩

theorem evol_wf_applyOps (env : SyncEnv) (cfg : SyncConfig) (ops : List ServiceOp) :
    ∀ s : ServiceState, WF s →
      Evol s (applyOps env cfg ops s) ∧ WF (applyOps env cfg ops s) := by
  induction ops with
  | nil => intro s hwf; exact ⟨evol_refl s, hwf⟩
  | cons op rest ih =>
      intro s hwf
      obtain ⟨e1, w1⟩ := evol_wf_applyOp env cfg op s hwf
      obtain ⟨e2, w2⟩ := ih (applyOp env cfg op s) w1
      exact ⟨evol_trans hwf.2 e1 e2, w2⟩

/-! Characterization of a drain pass when every storage request succeeds. -/

/-- Resulting queue record of one snapshot item after its drain step, when
storage is reliable: over the retry budget it is marked failed without
dispatch; a successfully delivered (or dispatch-free) item is deleted; a
failed delivery leaves the item marked failed with the remote error. -/
def itemOutcome (env : SyncEnv) (cfg : SyncConfig) (i : QueueItem) : Option QueueItem :=
  if cfg.maxRetryAttempts ≤ i.retryCount then
    some (updFn i.id .failed (some "Max retry attempts exceeded") i)
  else
    match dispatchCall i with
    | none => none
    | some c =>
        if env.callOk c then none
        else some (updFn i.id .failed (some (env.callErr c)) (updFn i.id .syncing none i))

/-- Remote calls issued for one snapshot item during its drain step: none
when the retry budget is exhausted, otherwise its dispatch call if any. -/
def itemCalls (env : SyncEnv) (cfg : SyncConfig) (i : QueueItem) : List RemoteCall :=
  if cfg.maxRetryAttempts ≤ i.retryCount then [] else (dispatchCall i).toList

theorem findItem_updQueue_ne (q : List QueueItem) (iid : Nat) (st : QStatus)
    (msg : Option String) (iid2 : Nat) (h : iid2 ≠ iid) :
    findItem (updQueue q iid st msg) iid2 = findItem q iid2 := by
  rw [findItem_updQueue]
  cases hf : findItem q iid2 with
  | none => rfl
  | some j =>
      have hj := (findItem_mem hf).2
      have : j.id ≠ iid := by rw [hj]; exact h
      simp [updFn, this]

theorem update_ok_of_reliable (env : SyncEnv) (s : ServiceState) (iid : Nat)
    (st : QStatus) (msg : Option String) (hok : env.updateOk iid st = true)
    (hf : (findItem s.queue iid).isSome) :
    updateQueueItemStatus env s iid st msg =
      .ok (notify { s with
        queue := (updQueue s.queue iid st msg),
        events := s.events ++ [(iid, st)] }) := by
  unfold updateQueueItemStatus
  rw [hok, if_pos rfl]
  cases hfq : findItem s.queue iid with
  | none => rw [hfq] at hf; cases hf
  | some j => rfl

theorem delete_ok_of_reliable (env : SyncEnv) (s : ServiceState) (iid : Nat)
    (hok : env.deleteOk iid = true) :
    deleteQueueItem env s iid =
      .ok (notify { s with queue := s.queue.filter (fun j => j.id != iid) }) := by
  unfold deleteQueueItem
  rw [hok, if_pos rfl]

theorem process_none (env : SyncEnv) (i : QueueItem) (s : ServiceState)
    (h : dispatchCall i = none) : processSyncItem env i s = .ok s := by
  unfold processSyncItem
  rw [h]

theorem process_ok (env : SyncEnv) (i : QueueItem) (s : ServiceState) (c : RemoteCall)
    (h : dispatchCall i = some c) (hok : env.callOk c = true) :
    processSyncItem env i s = .ok { s with remoteTrace := s.remoteTrace ++ [c] } := by
  unfold processSyncItem
  rw [h]
  dsimp only
  rw [hok, if_pos rfl]

theorem process_err (env : SyncEnv) (i : QueueItem) (s : ServiceState) (c : RemoteCall)
    (h : dispatchCall i = some c) (hok : env.callOk c = false) :
    processSyncItem env i s =
      .err { s with remoteTrace := s.remoteTrace ++ [c] } (env.callErr c) := by
  unfold processSyncItem
  rw [h]
  dsimp only
  rw [hok]
  rw [if_neg (by simp)]

theorem drainStep_spec (env : SyncEnv) (cfg : SyncConfig) (s : ServiceState)
    (i : QueueItem) (hrel : StorageReliable env)
    (hf : findItem s.queue i.id = some i) :
    ∃ s1, drainStep env cfg s i = .ok s1 ∧
      findItem s1.queue i.id = itemOutcome env cfg i ∧
      (∀ iid, iid ≠ i.id → findItem s1.queue iid = findItem s.queue iid) ∧
      s1.remoteTrace = s.remoteTrace ++ itemCalls env cfg i ∧
      EngineFrame s s1 := by
  obtain ⟨hrp, hupd, hdel⟩ := hrel
  have hfs : (findItem s.queue i.id).isSome := by rw [hf]; rfl
  unfold drainStep
  by_cases hmax : cfg.maxRetryAttempts ≤ i.retryCount
  · rw [if_pos hmax,
       update_ok_of_reliable env s i.id .failed (some "Max retry attempts exceeded")
         (hupd i.id .failed) hfs]
    refine ⟨_, rfl, ?_, ?_, ?_, ⟨rfl, rfl, rfl, rfl, rfl, rfl⟩⟩
    · show findItem (updQueue s.queue i.id .failed (some "Max retry attempts exceeded"))
        i.id = _
      rw [findItem_updQueue, hf]
      unfold itemOutcome
      rw [if_pos hmax]
      rfl
    · intro iid hne
      exact findItem_updQueue_ne s.queue i.id .failed _ iid hne
    · show s.remoteTrace = s.remoteTrace ++ itemCalls env cfg i
      unfold itemCalls
      rw [if_pos hmax, List.append_nil]
  · rw [if_neg hmax,
       update_ok_of_reliable env s i.id .syncing none (hupd i.id .syncing) hfs]
    dsimp only
    have hf1 : findItem (updQueue s.queue i.id QStatus.syncing none) i.id =
        some (updFn i.id .syncing none i) := by
      rw [findItem_updQueue, hf]
      rfl
    have hf1s : (findItem (updQueue s.queue i.id QStatus.syncing none) i.id).isSome := by
      rw [hf1]
      rfl
    cases hdc : dispatchCall i with
    | none =>
        rw [process_none env i _ hdc]
        dsimp only
        rw [update_ok_of_reliable env _ i.id .completed none (hupd i.id .completed) hf1s]
        dsimp only
        rw [delete_ok_of_reliable env _ i.id (hdel i.id)]
        refine ⟨_, rfl, ?_, ?_, ?_, ⟨rfl, rfl, rfl, rfl, rfl, rfl⟩⟩
        · show findItem ((updQueue (updQueue s.queue i.id .syncing none) i.id .completed
            none).filter (fun j => j.id != i.id)) i.id = _
          rw [findItem_filterNe, if_pos rfl]
          unfold itemOutcome
          rw [if_neg hmax, hdc]
        · intro iid hne
          show findItem ((updQueue (updQueue s.queue i.id .syncing none) i.id .completed
            none).filter (fun j => j.id != i.id)) iid = _
          rw [findItem_filterNe, if_neg hne,
              findItem_updQueue_ne _ _ _ _ _ hne, findItem_updQueue_ne _ _ _ _ _ hne]
        · show s.remoteTrace = s.remoteTrace ++ itemCalls env cfg i
          unfold itemCalls
          rw [if_neg hmax, hdc]
          simp
    | some c =>
        by_cases hok : env.callOk c = true
        · rw [process_ok env i _ c hdc hok]
          dsimp only
          rw [update_ok_of_reliable env _ i.id .completed none (hupd i.id .completed) hf1s]
          dsimp only
          rw [delete_ok_of_reliable env _ i.id (hdel i.id)]
          refine ⟨_, rfl, ?_, ?_, ?_, ⟨rfl, rfl, rfl, rfl, rfl, rfl⟩⟩
          · show findItem ((updQueue (updQueue s.queue i.id .syncing none) i.id .completed
              none).filter (fun j => j.id != i.id)) i.id = _
            rw [findItem_filterNe, if_pos rfl]
            unfold itemOutcome
            rw [if_neg hmax, hdc]
            dsimp only
            rw [if_pos hok]
          · intro iid hne
            show findItem ((updQueue (updQueue s.queue i.id .syncing none) i.id .completed
              none).filter (fun j => j.id != i.id)) iid = _
            rw [findItem_filterNe, if_neg hne,
                findItem_updQueue_ne _ _ _ _ _ hne, findItem_updQueue_ne _ _ _ _ _ hne]
          · show s.remoteTrace ++ [c] = s.remoteTrace ++ itemCalls env cfg i
            unfold itemCalls
            rw [if_neg hmax, hdc]
            rfl
        · have hokf : env.callOk c = false := Bool.eq_false_iff.mpr hok
          rw [process_err env i _ c hdc hokf]
          dsimp only
          unfold innerFail
          rw [update_ok_of_reliable env _ i.id .failed (some (env.callErr c))
            (hupd i.id .failed) hf1s]
          refine ⟨_, rfl, ?_, ?_, ?_, ⟨rfl, rfl, rfl, rfl, rfl, rfl⟩⟩
          · show findItem (updQueue (updQueue s.queue i.id .syncing none) i.id .failed
              (some (env.callErr c))) i.id = _
            rw [findItem_updQueue, hf1]
            unfold itemOutcome
            rw [if_neg hmax, hdc]
            dsimp only
            rw [if_neg hok]
            rfl
          · intro iid hne
            show findItem (updQueue (updQueue s.queue i.id .syncing none) i.id .failed
              (some (env.callErr c))) iid = _
            rw [findItem_updQueue_ne _ _ _ _ _ hne, findItem_updQueue_ne _ _ _ _ _ hne]
          · show s.remoteTrace ++ [c] = s.remoteTrace ++ itemCalls env cfg i
            unfold itemCalls
            rw [if_neg hmax, hdc]
            rfl

theorem drainLoop_spec (env : SyncEnv) (cfg : SyncConfig) (hrel : StorageReliable env) :
    ∀ (items : List QueueItem) (s : ServiceState),
      (items.map (fun j => j.id)).Nodup →
      (∀ i ∈ items, findItem s.queue i.id = some i) →
      ∃ s1, drainLoop env cfg items s = .ok s1 ∧
        s1.remoteTrace = s.remoteTrace ++ items.flatMap (itemCalls env cfg) ∧
        (∀ i ∈ items, findItem s1.queue i.id = itemOutcome env cfg i) ∧
        (∀ iid, iid ∉ items.map (fun j => j.id) →
          findItem s1.queue iid = findItem s.queue iid) ∧
        EngineFrame s s1 := by
  intro items
  induction items with
  | nil =>
      intro s hnd hall
      exact ⟨s, rfl, by simp, by simp, fun iid _ => rfl, engineFrame_refl s⟩
  | cons i rest ih =>
      intro s hnd hall
      obtain ⟨s1, hstep, hout, hother, htrace, hframe⟩ :=
        drainStep_spec env cfg s i hrel (hall i (List.mem_cons_self i rest))
      simp only [drainLoop]
      rw [hstep]
      have hnd2 := List.nodup_cons.mp hnd
      have hallr : ∀ j ∈ rest, findItem s1.queue j.id = some j := by
        intro j hj
        have hne : j.id ≠ i.id := by
          intro he
          exact hnd2.1 (List.mem_map.mpr ⟨j, hj, he⟩)
        rw [hother j.id hne]
        exact hall j (List.mem_cons_of_mem i hj)
      obtain ⟨s2, hloop, htrace2, hout2, hother2, hframe2⟩ := ih s1 hnd2.2 hallr
      refine ⟨s2, hloop, ?_, ?_, ?_, engineFrame_trans hframe hframe2⟩
      · rw [htrace2, htrace, List.append_assoc]
        simp
      · intro j hj
        rcases List.mem_cons.mp hj with h | h
        · subst h
          rw [hother2 j.id hnd2.1, hout]
        · exact hout2 j h
      · intro iid hnin
        have hnin1 : iid ∉ rest.map (fun j => j.id) := fun hc => hnin (by simp [hc])
        have hne : iid ≠ i.id := fun he => hnin (by simp [he])
        rw [hother2 iid hnin1, hother iid hne]

theorem pending_ids_nodup (s : ServiceState) (hwf : WF s) :
    ((getPendingQueueItems s.queue).map (fun j => j.id)).Nodup :=
  hwf.1.sublist ((List.filter_sublist s.queue).map (fun j => j.id))

theorem pending_found (s : ServiceState) (hwf : WF s) :
    ∀ i ∈ getPendingQueueItems s.queue, findItem s.queue i.id = some i :=
  fun i hi => findItem_of_mem_nodup hwf.1 (List.mem_of_mem_filter hi)

theorem syncBody_spec (env : SyncEnv) (cfg : SyncConfig) (s : ServiceState)
    (hrel : StorageReliable env) (hwf : WF s) :
    (syncBody env cfg s).remoteTrace =
        s.remoteTrace ++ (getPendingQueueItems s.queue).flatMap (itemCalls env cfg)
          ++ refreshCalls env ∧
      (∀ i ∈ getPendingQueueItems s.queue,
        findItem (syncBody env cfg s).queue i.id = itemOutcome env cfg i) ∧
      (∀ iid, iid ∉ (getPendingQueueItems s.queue).map (fun j => j.id) →
        findItem (syncBody env cfg s).queue iid = findItem s.queue iid) ∧
      (syncBody env cfg s).isOnline = s.isOnline ∧
      (syncBody env cfg s).syncInProgress = s.syncInProgress ∧
      (syncBody env cfg s).nextQueueId = s.nextQueueId := by
  unfold syncBody
  rw [hrel.1, if_pos rfl]
  obtain ⟨sd, hloop, htr, hout, hoth, hfr⟩ :=
    drainLoop_spec env cfg hrel (getPendingQueueItems s.queue) s
      (pending_ids_nodup s hwf) (pending_found s hwf)
  rw [hloop]
  obtain ⟨dq, de, dn, dio, dsy, db, dtr⟩ := download_frame env sd
  refine ⟨?_, ?_, ?_, ?_, ?_, ?_⟩
  · rw [dtr, htr]
  · intro i hi
    show findItem (downloadServerData env sd).queue i.id = _
    rw [dq]
    exact hout i hi
  · intro iid hnin
    show findItem (downloadServerData env sd).queue iid = _
    rw [dq]
    exact hoth iid hnin
  · rw [dio, hfr.2.2.2.1]
  · rw [dsy, hfr.2.2.2.2.1]
  · rw [dn, hfr.2.2.2.2.2]

theorem syncAll_run (env : SyncEnv) (cfg : SyncConfig) (s : ServiceState)
    (hon : s.isOnline = true) (hns : s.syncInProgress = false) :
    syncAll env cfg s =
      notify { syncBody env cfg (notify { s with syncInProgress := true }) with
               syncInProgress := false } := by
  unfold syncAll
  have hg : (!s.isOnline || s.syncInProgress) = false := by rw [hon, hns]; rfl
  rw [hg]
  rfl

theorem syncAll_spec (env : SyncEnv) (cfg : SyncConfig) (s : ServiceState)
    (hrel : StorageReliable env) (hwf : WF s)
    (hon : s.isOnline = true) (hns : s.syncInProgress = false) :
    (syncAll env cfg s).remoteTrace =
        s.remoteTrace ++ (getPendingQueueItems s.queue).flatMap (itemCalls env cfg)
          ++ refreshCalls env ∧
      (∀ i ∈ getPendingQueueItems s.queue,
        findItem (syncAll env cfg s).queue i.id = itemOutcome env cfg i) ∧
      (∀ iid, iid ∉ (getPendingQueueItems s.queue).map (fun j => j.id) →
        findItem (syncAll env cfg s).queue iid = findItem s.queue iid) ∧
      (syncAll env cfg s).isOnline = true ∧
      (syncAll env cfg s).syncInProgress = false ∧
      (syncAll env cfg s).nextQueueId = s.nextQueueId := by
  have hrun := syncAll_run env cfg s hon hns
  have hwf1 : WF (notify { s with syncInProgress := true }) := wf_congr rfl rfl hwf
  obtain ⟨btr, bout, both, bio, bsy, bnx⟩ :=
    syncBody_spec env cfg (notify { s with syncInProgress := true }) hrel hwf1
  rw [hrun]
  refine ⟨?_, ?_, ?_, ?_, rfl, ?_⟩
  · show (syncBody env cfg (notify { s with syncInProgress := true })).remoteTrace = _
    exact btr
  · intro i hi
    show findItem (syncBody env cfg
      (notify { s with syncInProgress := true })).queue i.id = _
    exact bout i hi
  · intro iid hnin
    show findItem (syncBody env cfg
      (notify { s with syncInProgress := true })).queue iid = _
    exact both iid hnin
  · show (syncBody env cfg (notify { s with syncInProgress := true })).isOnline = true
    rw [bio]
    exact hon
  · show (syncBody env cfg (notify { s with syncInProgress := true })).nextQueueId = _
    exact bnx

/-! Record-level consequences of the status update. -/

theorem updFn_self (iid : Nat) (st : QStatus) (msg : Option String) (j : QueueItem)
    (h : j.id = iid) :
    updFn iid st msg j =
      { j with
        status := st,
        error := (errUpd j.error msg),
        retryCount := if st == QStatus.failed then j.retryCount + 1 else j.retryCount } := by
  unfold updFn
  rw [if_pos (by simp [h])]

theorem updFn_fail_after_syncing (iid : Nat) (msg : String) (i : QueueItem)
    (h : i.id = iid) :
    updFn iid .failed (some msg) (updFn iid .syncing none i) =
      { i with
        status := .failed,
        retryCount := i.retryCount + 1,
        error := (errUpd i.error (some msg)) } := by
  cases i
  simp only [updFn, errUpd] at h ⊢
  simp [h]

/-! Lookup lemmas for the orders collection. -/

theorem findOrder_cons (a : Order) (t : List Order) (oid : String) :
    (a :: t).find? (fun x => x.id == oid) =
      if a.id = oid then some a else t.find? (fun x => x.id == oid) := by
  rw [List.find?_cons]
  by_cases h : a.id = oid
  · have hb : (a.id == oid) = true := by simp [h]
    simp [hb, h]
  · have hb : (a.id == oid) = false := by simp [h]
    simp [hb, h]

theorem find?_upsertOrder (os : List Order) (o : Order) :
    (upsertOrder os o).find? (fun x => x.id == o.id) = some o := by
  unfold upsertOrder
  by_cases h : os.any (fun x => x.id == o.id) = true
  · rw [if_pos h]
    induction os with
    | nil => cases h
    | cons a t ih =>
        rw [List.map_cons]
        by_cases ha : a.id = o.id
        · have : (if a.id == o.id then o else a) = o := by
            rw [if_pos (by simp [ha])]
          rw [this, findOrder_cons, if_pos rfl]
        · have hxa : (if a.id == o.id then o else a) = a := by
            rw [if_neg (by simp [ha])]
          rw [hxa, findOrder_cons, if_neg ha]
          apply ih
          rw [List.any_cons] at h
          have hba : (a.id == o.id) = false := by simp [ha]
          rw [hba] at h
          simpa using h
  · rw [if_neg h]
    have hall : ∀ x ∈ os, (x.id == o.id) = false := by
      intro x hx
      by_contra hc
      have : (x.id == o.id) = true := by
        cases hb : (x.id == o.id) with
        | true => rfl
        | false => exact absurd hb hc
      exact h (List.any_eq_true.mpr ⟨x, hx, this⟩)
    induction os with
    | nil =>
        rw [List.nil_append, findOrder_cons, if_pos rfl]
    | cons a t ih =>
        rw [List.cons_append, findOrder_cons, if_neg]
        · apply ih
          · intro hc
            exact h (by rw [List.any_cons, hc]; simp)
          · intro x hx
            exact hall x (List.mem_cons_of_mem a hx)
        · have := hall a (List.mem_cons_self a t)
          simpa using this

/-! Arithmetic of the offline order totals. -/

theorem foldl_add_subtotal (l : List OrderItem) (c : ℚ) :
    l.foldl (fun acc it => acc + it.subtotal) c = c + (l.map (fun it => it.subtotal)).sum := by
  induction l generalizing c with
  | nil => simp
  | cons a t ih =>
      rw [List.foldl_cons, ih, List.map_cons, List.sum_cons]
      ring

theorem enum_map_snd_comp {α β : Type} (l : List α) (f : α → β) :
    l.enum.map (fun p => f p.2) = l.map f := by
  have : (fun p : Nat × α => f p.2) = f ∘ Prod.snd := rfl
  rw [this, ← List.map_map, List.enum_map_snd]

theorem offlineItems_subtotals (ts : Nat) (draft : OrderDraft) :
    (offlineOrderItems ts draft).map (fun it => it.subtotal) =
      draft.items.map (fun it =>
        it.quantity * it.unitPrice * (1 - (it.discount.getD 0) / 100)) := by
  unfold offlineOrderItems
  rw [List.map_map]
  have hcomp : ∀ p : Nat × DraftItem,
      ((fun it : OrderItem => it.subtotal) ∘ (fun p : Nat × DraftItem =>
        let subtotalBeforeDiscount := p.2.quantity * p.2.unitPrice
        let discountAmount := subtotalBeforeDiscount * (p.2.discount.getD 0) / 100
        let subtotal := subtotalBeforeDiscount - discountAmount
        { id := "item-" ++ toString ts ++ "-" ++ toString p.1,
          productId := p.2.productId, productName := p.2.productName,
          productImage := p.2.productImage, quantity := p.2.quantity,
          unitPrice := p.2.unitPrice, discount := (p.2.discount.getD 0),
          subtotal := subtotal : OrderItem })) p =
      p.2.quantity * p.2.unitPrice * (1 - (p.2.discount.getD 0) / 100) := by
    intro p
    show p.2.quantity * p.2.unitPrice -
        p.2.quantity * p.2.unitPrice * (p.2.discount.getD 0) / 100 = _
    ring
  rw [List.map_congr_left (fun p _ => hcomp p)]
  exact enum_map_snd_comp draft.items
    (fun it => it.quantity * it.unitPrice * (1 - (it.discount.getD 0) / 100))

/-! Broadcast counting: the status broadcaster only ever gains broadcasts. -/

theorem broadcasts_update (env : SyncEnv) (s : ServiceState) (iid : Nat)
    (st : QStatus) (msg : Option String) :
    s.broadcasts ≤ (updateQueueItemStatus env s iid st msg).state.broadcasts := by
  unfold updateQueueItemStatus
  by_cases hok : env.updateOk iid st
  · rw [if_pos hok]
    cases hf : findItem s.queue iid with
    | none => exact le_refl _
    | some j => exact Nat.le_succ _
  · rw [if_neg hok]
    exact le_refl _

theorem broadcasts_delete (env : SyncEnv) (s : ServiceState) (iid : Nat) :
    s.broadcasts ≤ (deleteQueueItem env s iid).state.broadcasts := by
  unfold deleteQueueItem
  by_cases hok : env.deleteOk iid
  · rw [if_pos hok]
    exact Nat.le_succ _
  · rw [if_neg hok]
    exact le_refl _

theorem broadcasts_process (env : SyncEnv) (i : QueueItem) (s : ServiceState) :
    s.broadcasts ≤ (processSyncItem env i s).state.broadcasts := by
  unfold processSyncItem
  cases dispatchCall i with
  | none => exact le_refl _
  | some c =>
      dsimp only
      by_cases hok : env.callOk c = true
      · rw [if_pos hok]; exact le_refl _
      · rw [if_neg hok]; exact le_refl _

theorem broadcasts_drainStep (env : SyncEnv) (cfg : SyncConfig) (s : ServiceState)
    (i : QueueItem) :
    s.broadcasts ≤ (drainStep env cfg s i).state.broadcasts := by
  unfold drainStep
  by_cases hmax : cfg.maxRetryAttempts ≤ i.retryCount
  · rw [if_pos hmax]
    exact broadcasts_update env s i.id .failed (some "Max retry attempts exceeded")
  · rw [if_neg hmax]
    cases h1 : updateQueueItemStatus env s i.id .syncing none with
    | err s1 m =>
        have b1 := broadcasts_update env s i.id .syncing none
        rw [h1] at b1
        exact b1.trans (broadcasts_update env s1 i.id .failed (some m))
    | ok s1 =>
        have b1 := broadcasts_update env s i.id .syncing none
        rw [h1] at b1
        dsimp only
        cases h2 : processSyncItem env i s1 with
        | err s2 m =>
            have b2 := broadcasts_process env i s1
            rw [h2] at b2
            exact b1.trans (b2.trans (broadcasts_update env s2 i.id .failed (some m)))
        | ok s2 =>
            have b2 := broadcasts_process env i s1
            rw [h2] at b2
            dsimp only
            cases h3 : updateQueueItemStatus env s2 i.id .completed none with
            | err s3 m =>
                have b3 := broadcasts_update env s2 i.id .completed none
                rw [h3] at b3
                exact b1.trans (b2.trans (b3.trans
                  (broadcasts_update env s3 i.id .failed (some m))))
            | ok s3 =>
                have b3 := broadcasts_update env s2 i.id .completed none
                rw [h3] at b3
                dsimp only
                cases h4 : deleteQueueItem env s3 i.id with
                | err s4 m =>
                    have b4 := broadcasts_delete env s3 i.id
                    rw [h4] at b4
                    exact b1.trans (b2.trans (b3.trans (b4.trans
                      (broadcasts_update env s4 i.id .failed (some m)))))
                | ok s4 =>
                    have b4 := broadcasts_delete env s3 i.id
                    rw [h4] at b4
                    exact b1.trans (b2.trans (b3.trans b4))

theorem broadcasts_drainLoop (env : SyncEnv) (cfg : SyncConfig) (items : List QueueItem) :
    ∀ s : ServiceState, s.broadcasts ≤ (drainLoop env cfg items s).state.broadcasts := by
  induction items with
  | nil => intro s; exact le_refl _
  | cons i rest ih =>
      intro s
      simp only [drainLoop]
      cases hs : drainStep env cfg s i with
      | ok s1 =>
          have b1 := broadcasts_drainStep env cfg s i
          rw [hs] at b1
          exact b1.trans (ih s1)
      | err s1 m =>
          have b1 := broadcasts_drainStep env cfg s i
          rw [hs] at b1
          exact b1

theorem broadcasts_syncBody (env : SyncEnv) (cfg : SyncConfig) (s : ServiceState) :
    s.broadcasts ≤ (syncBody env cfg s).broadcasts := by
  unfold syncBody
  by_cases hr : env.readPendingOk = true
  · rw [if_pos hr]
    cases hd : drainLoop env cfg (getPendingQueueItems s.queue) s with
    | ok sd =>
        have b1 := broadcasts_drainLoop env cfg (getPendingQueueItems s.queue) s
        rw [hd] at b1
        have b2 := (download_frame env sd).2.2.2.2.2.1
        rw [b2]
        exact b1
    | err sd m =>
        have b1 := broadcasts_drainLoop env cfg (getPendingQueueItems s.queue) s
        rw [hd] at b1
        exact b1
  · rw [if_neg hr]

/-! Batch enqueue: the items created by a sequence of addToSyncQueue calls. -/

/-- Queue item created by addToSyncQueue for the key n. -/
def mkQueueItem (n now : Nat) (m : Mutation) : QueueItem :=
  { id := n, type := m.type, action := m.action, data := m.data, timestamp := now,
    retryCount := 0, status := .pending, error := none }

/-- Items created by a sequence of enqueues starting at key n. -/
def mkItems (now : Nat) : Nat → List Mutation → List QueueItem
  | _, [] => []
  | n, m :: r => mkQueueItem n now m :: mkItems now (n + 1) r

/-- A sequence of addToSyncQueue calls. -/
def enqueueAll (now : Nat) (ms : List Mutation) (s : ServiceState) : ServiceState :=
  ms.foldl (fun st m => addToSyncQueue now m st) s

theorem enqueueAll_state (now : Nat) (ms : List Mutation) :
    ∀ s : ServiceState,
      (enqueueAll now ms s).queue = s.queue ++ mkItems now s.nextQueueId ms ∧
      (enqueueAll now ms s).isOnline = s.isOnline ∧
      (enqueueAll now ms s).syncInProgress = s.syncInProgress ∧
      (enqueueAll now ms s).remoteTrace = s.remoteTrace := by
  induction ms with
  | nil =>
      intro s
      exact ⟨by simp [enqueueAll, mkItems], rfl, rfl, rfl⟩
  | cons m r ih =>
      intro s
      have hstep : enqueueAll now (m :: r) s = enqueueAll now r (addToSyncQueue now m s) := rfl
      obtain ⟨hq, hio, hsy, htr⟩ := ih (addToSyncQueue now m s)
      rw [hstep]
      refine ⟨?_, hio, hsy, htr⟩
      rw [hq]
      show (s.queue ++ [mkQueueItem s.nextQueueId now m]) ++
          mkItems now (s.nextQueueId + 1) r = _
      rw [List.append_assoc]
      rfl

theorem wf_enqueueAll (now : Nat) (ms : List Mutation) :
    ∀ s : ServiceState, WF s → WF (enqueueAll now ms s) := by
  induction ms with
  | nil => intro s hwf; exact hwf
  | cons m r ih =>
      intro s hwf
      exact ih (addToSyncQueue now m s) (wf_add now m s hwf)

theorem mkItems_pending (now : Nat) :
    ∀ (n : Nat) (ms : List Mutation),
      getPendingQueueItems (mkItems now n ms) = mkItems now n ms := by
  intro n ms
  induction ms generalizing n with
  | nil => rfl
  | cons m r ih =>
      show getPendingQueueItems (mkQueueItem n now m :: mkItems now (n + 1) r) = _
      unfold getPendingQueueItems
      rw [List.filter_cons_of_pos (by rfl)]
      have := ih (n + 1)
      unfold getPendingQueueItems at this
      rw [this]
      rfl

/-- Remote call implied by a mutation, as enqueued. -/
def mutationCalls (m : Mutation) : List RemoteCall :=
  (dispatchOf m.type m.action m.data).toList

theorem mkItems_flatMap (env : SyncEnv) (cfg : SyncConfig)
    (hmax : 0 < cfg.maxRetryAttempts) (now : Nat) :
    ∀ (n : Nat) (ms : List Mutation),
      (mkItems now n ms).flatMap (itemCalls env cfg) = ms.flatMap mutationCalls := by
  intro n ms
  induction ms generalizing n with
  | nil => rfl
  | cons m r ih =>
      show (mkQueueItem n now m :: mkItems now (n + 1) r).flatMap (itemCalls env cfg) = _
      rw [List.flatMap_cons, List.flatMap_cons, ih (n + 1)]
      have : itemCalls env cfg (mkQueueItem n now m) = mutationCalls m := by
        unfold itemCalls
        rw [if_neg (by show ¬cfg.maxRetryAttempts ≤ 0; omega)]
        rfl
      rw [this]

theorem mkItems_triples (now : Nat) :
    ∀ (n : Nat) (ms : List Mutation),
      (mkItems now n ms).map (fun i => (i.type, i.action, i.data)) =
        ms.map (fun m => (m.type, m.action, m.data)) := by
  intro n ms
  induction ms generalizing n with
  | nil => rfl
  | cons m r ih =>
      show ((mkQueueItem n now m :: mkItems now (n + 1) r).map
        (fun i => (i.type, i.action, i.data))) = _
      rw [List.map_cons, List.map_cons, ih (n + 1)]
      rfl

/-! Concrete fixtures used by witnesses and counterexamples. -/

/-- Fresh service state: online, idle, all collections empty. -/
def initState : ServiceState :=
  { isOnline := true, syncInProgress := false, orders := [], customers := [],
    products := [], queue := [], nextQueueId := 1, events := [], broadcasts := 0,
    remoteTrace := [] }

/-- Environment with reliable storage, all remote calls succeeding and an
empty server. -/
def envAllOk : SyncEnv :=
  { callOk := fun _ => true, callErr := fun _ => "Network error",
    readPendingOk := true, updateOk := fun _ _ => true, deleteOk := fun _ => true,
    storeErr := "storage io error", serverOrders := [], serverCustomers := [],
    serverProducts := [] }

theorem envAllOk_reliable : StorageReliable envAllOk :=
  ⟨rfl, fun _ _ => rfl, fun _ => rfl⟩

/-- Environment in which createOrder fails with a transport error and every
other remote call succeeds; storage is reliable. -/
def envOrderFail : SyncEnv :=
  { envAllOk with
    callOk := fun c => match c with | .createOrder _ => false | _ => true }

theorem envOrderFail_reliable : StorageReliable envOrderFail :=
  ⟨rfl, fun _ _ => rfl, fun _ => rfl⟩

/-- A pending offline order creation sitting in the queue. -/
def itemC1 : QueueItem :=
  { id := 1, type := .order, action := .create, data := {}, timestamp := 0,
    retryCount := 0, status := .pending, error := none }

def stateC1 : ServiceState := { initState with queue := [itemC1], nextQueueId := 2 }

/-- C1: the claim says that with maxRetryAttempts = 3 an item whose remote
delivery fails keeps status pending, is retried by the next separately
triggered syncAll pass, reaches retryCount 2 after two failing passes, and
only fails terminally on the third failure.  On the code, the first failure
already marks the item failed; getPendingQueueItems only returns pending
items, so the second pass sees an empty snapshot, dispatches nothing, and
the item stays failed with retryCount 1 forever: exactly one createOrder
dispatch ever happens across both passes. -/
theorem failed_item_never_retried :
    findItem (syncAll envOrderFail SYNC_CONFIG
        (syncAll envOrderFail SYNC_CONFIG stateC1)).queue 1 =
      some { itemC1 with
             status := .failed, retryCount := 1, error := some "Network error" } ∧
    getPendingQueueItems (syncAll envOrderFail SYNC_CONFIG stateC1).queue = [] ∧
    ((syncAll envOrderFail SYNC_CONFIG
        (syncAll envOrderFail SYNC_CONFIG stateC1)).remoteTrace.filter (fun c =>
      match c with | RemoteCall.createOrder _ => true | _ => false)).length = 1 := by
  decide

/-- C5: when the service is offline or a pass is already in flight,
syncAll is a complete no-op: it returns the state unchanged, so the queue,
the collections, the flags, the broadcast count and the remote trace are
all untouched. -/
theorem syncAll_guard_noop (env : SyncEnv) (cfg : SyncConfig) (s : ServiceState)
    (h : s.isOnline = false ∨ s.syncInProgress = true) :
    syncAll env cfg s = s := by
  unfold syncAll
  have hg : (!s.isOnline || s.syncInProgress) = true := by
    rcases h with h | h
    · rw [h]; rfl
    · rw [h]; simp
  rw [if_pos hg]

/-- An offline state with one pending queue item. -/
def stateC5 : ServiceState :=
  { initState with isOnline := false, queue := [itemC1], nextQueueId := 2 }

/-- Witness for C5: syncAll on a concrete offline state with a pending item
is the identity. -/
theorem syncAll_guard_noop_witness :
    (stateC5.isOnline = false ∨ stateC5.syncInProgress = true) ∧
      syncAll envAllOk SYNC_CONFIG stateC5 = stateC5 :=
  ⟨Or.inl rfl, syncAll_guard_noop envAllOk SYNC_CONFIG stateC5 (Or.inl rfl)⟩

/-- A terminally failed queue item. -/
def itemC7 : QueueItem :=
  { id := 1, type := .order, action := .create, data := {}, timestamp := 0,
    retryCount := 3, status := .failed, error := some "Max retry attempts exceeded" }

def stateC7 : ServiceState := { initState with queue := [itemC7], nextQueueId := 2 }

/-- C7 counterexample: the claim says getSyncStatus reports the total queue
length as pending items, including terminally failed entries.  On a queue
holding exactly one failed item the code reports 0 pending items while the
queue length is 1: failed items are excluded, not conflated. -/
theorem pendingCount_excludes_failed_cx :
    (getSyncStatus stateC7).pendingItems = 0 ∧ stateC7.queue.length = 1 ∧
      itemC7.status = QStatus.failed ∧ itemC7 ∈ stateC7.queue := by
  decide

/-- C7 amended: getSyncStatus reports as pendingItems the number of queue
items whose status is pending (the result of getPendingQueueItems), so
terminally failed items are excluded from the count rather than included
in it. -/
theorem pendingCount_only_pending (s : ServiceState) :
    (getSyncStatus s).pendingItems =
      (s.queue.filter (fun i => i.status == QStatus.pending)).length := rfl

/-- C9: getSyncStatus hardcodes lastSyncTime to null, and no operation of
the service ever records a last-sync time, so after any sequence of public
operations from any state the reported lastSyncTime is still null. -/
theorem lastSyncTime_always_none (env : SyncEnv) (cfg : SyncConfig)
    (ops : List ServiceOp) (s : ServiceState) :
    (getSyncStatus (applyOps env cfg ops s)).lastSyncTime = none := rfl

/-- C2: createOfflineOrder persists the computed order locally and
enqueues its create mutation in one operation, with no remote call.
Looking the returned id up locally returns the record; its total is the
sum over the draft lines of quantity times unitPrice times one minus the
fractional discount (the percentage discount divided by 100), multiplied
by the tax-inclusive factor 1.15; and exactly one queue item of type
order, action create references the record by its local identifier,
provided no prior queue item already references that identifier. -/
theorem createOfflineOrder_spec (ts : Nat) (today nowIso : String)
    (draft : OrderDraft) (s : ServiceState)
    (hfresh : ∀ i ∈ s.queue, i.data.localOrderId ≠ some ("offline-" ++ toString ts)) :
    getLocalOrderById (createOfflineOrder ts today nowIso draft s).2
        (createOfflineOrder ts today nowIso draft s).1.id =
      some (createOfflineOrder ts today nowIso draft s).1 ∧
    (createOfflineOrder ts today nowIso draft s).1.total =
      ((draft.items.map (fun it =>
        it.quantity * it.unitPrice * (1 - (it.discount.getD 0) / 100))).sum) * 1.15 ∧
    ((createOfflineOrder ts today nowIso draft s).2.queue.filter (fun i =>
      i.type == QType.order && i.action == QAction.create &&
      i.data.localOrderId ==
        some (createOfflineOrder ts today nowIso draft s).1.id)).length = 1 ∧
    (createOfflineOrder ts today nowIso draft s).2.remoteTrace = s.remoteTrace := by
  refine ⟨?_, ?_, ?_, rfl⟩
  · exact find?_upsertOrder s.orders (offlineOrderOf ts today nowIso draft)
  · have h1 : (createOfflineOrder ts today nowIso draft s).1.total =
        ((offlineOrderItems ts draft).foldl (fun acc it => acc + it.subtotal) 0) +
          ((offlineOrderItems ts draft).foldl (fun acc it => acc + it.subtotal) 0) * 0.15 :=
      rfl
    rw [h1, foldl_add_subtotal, offlineItems_subtotals]
    ring
  · have hid : (createOfflineOrder ts today nowIso draft s).1.id =
        "offline-" ++ toString ts := rfl
    rw [hid]
    have hq : (createOfflineOrder ts today nowIso draft s).2.queue =
        s.queue ++ [mkQueueItem s.nextQueueId ts (offlineQueueMutation ts today draft)] :=
      rfl
    rw [hq, List.filter_append]
    have hold : s.queue.filter (fun i =>
        i.type == QType.order && i.action == QAction.create &&
        i.data.localOrderId == some ("offline-" ++ toString ts)) = [] := by
      apply List.filter_eq_nil_iff.mpr
      intro i hi
      have hc : (i.data.localOrderId == some ("offline-" ++ toString ts)) = false := by
        have hne := hfresh i hi
        simp [hne]
      simp [hc]
    rw [hold]
    have hnew : ([mkQueueItem s.nextQueueId ts (offlineQueueMutation ts today draft)].filter
        (fun i => i.type == QType.order && i.action == QAction.create &&
          i.data.localOrderId == some ("offline-" ++ toString ts))) =
        [mkQueueItem s.nextQueueId ts (offlineQueueMutation ts today draft)] := by
      rw [List.filter_cons_of_pos]
      · rfl
      · show ((mkQueueItem s.nextQueueId ts (offlineQueueMutation ts today draft)).type
            == QType.order &&
          (mkQueueItem s.nextQueueId ts (offlineQueueMutation ts today draft)).action
            == QAction.create &&
          (mkQueueItem s.nextQueueId ts (offlineQueueMutation ts today draft)).data.localOrderId
            == some ("offline-" ++ toString ts)) = true
        simp [mkQueueItem, offlineQueueMutation]
    rw [hnew]
    rfl

/-- A concrete order draft with two lines: 2 at 100 with a 10 percent
discount, and 1 at 50 with no discount. -/
def draftC2 : OrderDraft :=
  { customerId := "c1", customerName := "Alice",
    items := [
      { productId := "p1", productName := "Beef", productImage := none,
        quantity := 2, unitPrice := 100, discount := some 10 },
      { productId := "p2", productName := "Lamb", productImage := none,
        quantity := 1, unitPrice := 50, discount := none }],
    salespersonId := none, salespersonName := none, deliveryAddress := none,
    notes := none }

/-- Witness for C2: the concrete draft on the fresh state yields a locally
retrievable order whose total is (2·100·0.9 + 1·50)·1.15 and exactly one
referencing queue item, with no remote call. -/
theorem createOfflineOrder_spec_witness :
    getLocalOrderById (createOfflineOrder 1728 "2026-10-11" "iso" draftC2 initState).2
        (createOfflineOrder 1728 "2026-10-11" "iso" draftC2 initState).1.id =
      some (createOfflineOrder 1728 "2026-10-11" "iso" draftC2 initState).1 ∧
    (createOfflineOrder 1728 "2026-10-11" "iso" draftC2 initState).1.total =
      ((draftC2.items.map (fun it =>
        it.quantity * it.unitPrice * (1 - (it.discount.getD 0) / 100))).sum) * 1.15 ∧
    ((createOfflineOrder 1728 "2026-10-11" "iso" draftC2 initState).2.queue.filter (fun i =>
      i.type == QType.order && i.action == QAction.create &&
      i.data.localOrderId ==
        some (createOfflineOrder 1728 "2026-10-11" "iso" draftC2 initState).1.id)).length = 1 ∧
    (createOfflineOrder 1728 "2026-10-11" "iso" draftC2 initState).2.remoteTrace =
      initState.remoteTrace :=
  createOfflineOrder_spec 1728 "2026-10-11" "iso" draftC2 initState
    (fun i hi => absurd hi (List.not_mem_nil i))

/-- C3: a pending queue item whose retryCount has reached maxRetryAttempts
at the start of a reliable-storage drain pass is marked terminally failed
without any delivery attempt (its contribution to the dispatch list is
empty, and the pass trace is exactly the other retryable dispatches plus
the refresh calls); it is absent from the pending snapshot of the
resulting state, any further reliable-storage pass leaves it untouched,
and the pendingItems count of getSyncStatus excludes it from then on. -/
theorem maxRetry_skipped_terminal (env : SyncEnv) (cfg : SyncConfig) (s : ServiceState)
    (i : QueueItem) (hrel : StorageReliable env) (hwf : WF s)
    (hon : s.isOnline = true) (hns : s.syncInProgress = false)
    (hmem : i ∈ s.queue) (hp : i.status = .pending)
    (hr : cfg.maxRetryAttempts ≤ i.retryCount) :
    findItem (syncAll env cfg s).queue i.id =
      some { i with
             status := .failed,
             retryCount := i.retryCount + 1,
             error := (errUpd i.error (some "Max retry attempts exceeded")) } ∧
    itemCalls env cfg i = [] ∧
    (syncAll env cfg s).remoteTrace =
      s.remoteTrace ++ (getPendingQueueItems s.queue).flatMap (itemCalls env cfg)
        ++ refreshCalls env ∧
    i.id ∉ (getPendingQueueItems (syncAll env cfg s).queue).map (fun j => j.id) ∧
    (∀ env2 cfg2, StorageReliable env2 →
      findItem (syncAll env2 cfg2 (syncAll env cfg s)).queue i.id =
        findItem (syncAll env cfg s).queue i.id) ∧
    (getSyncStatus (syncAll env cfg s)).pendingItems =
      ((syncAll env cfg s).queue.filter (fun j =>
        j.status == QStatus.pending && j.id != i.id)).length := by
  have hpend : i ∈ getPendingQueueItems s.queue :=
    List.mem_filter.mpr ⟨hmem, by simp [hp]⟩
  obtain ⟨htr, hout, hoth, hio, hsy, hnx⟩ := syncAll_spec env cfg s hrel hwf hon hns
  have hwf2 : WF (syncAll env cfg s) := (evol_wf_syncAll env cfg s hwf).2
  have hoeq : itemOutcome env cfg i =
      some (updFn i.id .failed (some "Max retry attempts exceeded") i) := by
    unfold itemOutcome
    rw [if_pos hr]
  have hfoundi : findItem (syncAll env cfg s).queue i.id =
      some { i with
             status := .failed,
             retryCount := i.retryCount + 1,
             error := (errUpd i.error (some "Max retry attempts exceeded")) } := by
    rw [hout i hpend, hoeq, updFn_self i.id .failed (some "Max retry attempts exceeded") i rfl]
    simp
  have hnotpend : i.id ∉
      (getPendingQueueItems (syncAll env cfg s).queue).map (fun j => j.id) := by
    intro hin
    obtain ⟨j, hj, hje⟩ := List.mem_map.mp hin
    have hj2 : j ∈ (syncAll env cfg s).queue.filter
        (fun k => k.status == QStatus.pending) := hj
    have hjq : j ∈ (syncAll env cfg s).queue := (List.mem_filter.mp hj2).1
    have hjp : (j.status == QStatus.pending) = true := (List.mem_filter.mp hj2).2
    have hjf : findItem (syncAll env cfg s).queue j.id = some j :=
      findItem_of_mem_nodup hwf2.1 hjq
    rw [hje, hfoundi] at hjf
    cases hjf
    simp at hjp
  refine ⟨hfoundi, ?_, htr, hnotpend, ?_, ?_⟩
  · unfold itemCalls
    rw [if_pos hr]
  · intro env2 cfg2 hrel2
    obtain ⟨_, _, hoth2, _, _, _⟩ :=
      syncAll_spec env2 cfg2 (syncAll env cfg s) hrel2 hwf2 hio hsy
    exact hoth2 i.id hnotpend
  · show (getPendingQueueItems (syncAll env cfg s).queue).length = _
    unfold getPendingQueueItems
    congr 1
    apply List.filter_congr
    intro j hj
    by_cases hjid : j.id = i.id
    · have hjf : findItem (syncAll env cfg s).queue j.id = some j :=
        findItem_of_mem_nodup hwf2.1 hj
      rw [hjid, hfoundi] at hjf
      cases hjf
      simp
    · have : (j.id != i.id) = true := by simp [hjid]
      rw [this, Bool.and_true]

/-- A pending item whose retry budget is exhausted. -/
def itemC3 : QueueItem :=
  { id := 1, type := .order, action := .create, data := {}, timestamp := 0,
    retryCount := 3, status := .pending, error := none }

def stateC3 : ServiceState := { initState with queue := [itemC3], nextQueueId := 2 }

/-- Witness for C3: the concrete exhausted item is terminally failed by a
pass with the default configuration and never dispatched. -/
theorem maxRetry_skipped_terminal_witness :
    findItem (syncAll envAllOk SYNC_CONFIG stateC3).queue itemC3.id =
      some { itemC3 with
             status := .failed,
             retryCount := itemC3.retryCount + 1,
             error := (errUpd itemC3.error (some "Max retry attempts exceeded")) } ∧
    itemCalls envAllOk SYNC_CONFIG itemC3 = [] ∧
    (syncAll envAllOk SYNC_CONFIG stateC3).remoteTrace =
      stateC3.remoteTrace ++
        (getPendingQueueItems stateC3.queue).flatMap (itemCalls envAllOk SYNC_CONFIG)
        ++ refreshCalls envAllOk ∧
    itemC3.id ∉ (getPendingQueueItems
      (syncAll envAllOk SYNC_CONFIG stateC3).queue).map (fun j => j.id) ∧
    (∀ env2 cfg2, StorageReliable env2 →
      findItem (syncAll env2 cfg2 (syncAll envAllOk SYNC_CONFIG stateC3)).queue itemC3.id =
        findItem (syncAll envAllOk SYNC_CONFIG stateC3).queue itemC3.id) ∧
    (getSyncStatus (syncAll envAllOk SYNC_CONFIG stateC3)).pendingItems =
      ((syncAll envAllOk SYNC_CONFIG stateC3).queue.filter (fun j =>
        j.status == QStatus.pending && j.id != itemC3.id)).length :=
  maxRetry_skipped_terminal envAllOk SYNC_CONFIG stateC3 itemC3 envAllOk_reliable
    ⟨by decide, by decide⟩ rfl rfl (by decide) rfl (by decide)

/-- C6: during a reliable-storage drain pass, the remote-delivery failure
of one item is caught and recorded on that item alone: the item ends up
failed with the remote error message and incremented retryCount, the pass
trace still contains one dispatch for every retryable pending item plus
the refresh calls (so the failure aborts neither the rest of the drain nor
the refresh phase, whose own failures are swallowed), and the pass
completes with the syncing flag cleared. -/
theorem item_failure_isolated (env : SyncEnv) (cfg : SyncConfig) (s : ServiceState)
    (i : QueueItem) (c : RemoteCall) (hrel : StorageReliable env) (hwf : WF s)
    (hon : s.isOnline = true) (hns : s.syncInProgress = false)
    (hmem : i ∈ s.queue) (hp : i.status = .pending)
    (hr : i.retryCount < cfg.maxRetryAttempts)
    (hdc : dispatchCall i = some c) (hfail : env.callOk c = false) :
    findItem (syncAll env cfg s).queue i.id =
      some { i with
             status := .failed,
             retryCount := i.retryCount + 1,
             error := (errUpd i.error (some (env.callErr c))) } ∧
    (syncAll env cfg s).remoteTrace =
      s.remoteTrace ++ (getPendingQueueItems s.queue).flatMap (itemCalls env cfg)
        ++ refreshCalls env ∧
    (syncAll env cfg s).syncInProgress = false := by
  have hpend : i ∈ getPendingQueueItems s.queue :=
    List.mem_filter.mpr ⟨hmem, by simp [hp]⟩
  obtain ⟨htr, hout, hoth, hio, hsy, hnx⟩ := syncAll_spec env cfg s hrel hwf hon hns
  have hoeq : itemOutcome env cfg i =
      some (updFn i.id .failed (some (env.callErr c)) (updFn i.id .syncing none i)) := by
    unfold itemOutcome
    rw [if_neg (not_le.mpr hr), hdc]
    dsimp only
    rw [if_neg (by simp [hfail])]
  refine ⟨?_, htr, hsy⟩
  rw [hout i hpend, hoeq, updFn_fail_after_syncing i.id (env.callErr c) i rfl]

/-- A second pending item behind the failing one. -/
def itemC6b : QueueItem :=
  { id := 2, type := .customer, action := .create, data := {}, timestamp := 0,
    retryCount := 0, status := .pending, error := none }

def stateC6 : ServiceState :=
  { initState with queue := [itemC1, itemC6b], nextQueueId := 3 }

/-- Environment for the C6 witness: createOrder fails with a transport
error, the refresh getOrders fetch fails too, everything else succeeds. -/
def envC6 : SyncEnv :=
  { envAllOk with
    callOk := fun c =>
      match c with
      | .createOrder _ => false
      | .getOrders _ _ => false
      | _ => true }

theorem envC6_reliable : StorageReliable envC6 :=
  ⟨rfl, fun _ _ => rfl, fun _ => rfl⟩

/-- Witness for C6: with a two-item queue whose first delivery fails and a
failing refresh fetch, the pass records the failure on the first item,
dispatches both items in order plus the refresh attempt, and completes. -/
theorem item_failure_isolated_witness :
    findItem (syncAll envC6 SYNC_CONFIG stateC6).queue itemC1.id =
      some { itemC1 with
             status := .failed,
             retryCount := itemC1.retryCount + 1,
             error := (errUpd itemC1.error (some (envC6.callErr (.createOrder itemC1.data)))) } ∧
    (syncAll envC6 SYNC_CONFIG stateC6).remoteTrace =
      stateC6.remoteTrace ++
        (getPendingQueueItems stateC6.queue).flatMap (itemCalls envC6 SYNC_CONFIG)
        ++ refreshCalls envC6 ∧
    (syncAll envC6 SYNC_CONFIG stateC6).syncInProgress = false :=
  item_failure_isolated envC6 SYNC_CONFIG stateC6 itemC1 (.createOrder itemC1.data)
    envC6_reliable ⟨by decide, by decide⟩ rfl rfl (by decide) rfl (by decide) rfl rfl

/-- C4: after enqueueing any sequence of mutations into an empty queue, the
pending snapshot lists them in enqueue order (FIFO: the status index getAll
returns ascending autoincrement keys, which is insertion order), and a
single reliable-storage syncAll pass dispatches exactly the remote calls of
those mutations in that same order, followed only by the refresh calls. -/
theorem syncAll_fifo (env : SyncEnv) (cfg : SyncConfig) (now : Nat)
    (ms : List Mutation) (s : ServiceState)
    (hrel : StorageReliable env) (hwf : WF s) (hq : s.queue = [])
    (hon : s.isOnline = true) (hns : s.syncInProgress = false)
    (hmax : 0 < cfg.maxRetryAttempts) :
    (getPendingQueueItems (enqueueAll now ms s).queue).map
        (fun i => (i.type, i.action, i.data)) =
      ms.map (fun m => (m.type, m.action, m.data)) ∧
    (syncAll env cfg (enqueueAll now ms s)).remoteTrace =
      (enqueueAll now ms s).remoteTrace ++ ms.flatMap mutationCalls
        ++ refreshCalls env := by
  obtain ⟨hqe, hio, hsy, htr⟩ := enqueueAll_state now ms s
  have hq1 : (enqueueAll now ms s).queue = mkItems now s.nextQueueId ms := by
    rw [hqe, hq, List.nil_append]
  have hpend : getPendingQueueItems (enqueueAll now ms s).queue =
      mkItems now s.nextQueueId ms := by
    rw [hq1]
    exact mkItems_pending now s.nextQueueId ms
  constructor
  · rw [hpend, mkItems_triples]
  · have hwf1 : WF (enqueueAll now ms s) := wf_enqueueAll now ms s hwf
    obtain ⟨htr2, _, _, _, _, _⟩ := syncAll_spec env cfg (enqueueAll now ms s) hrel hwf1
      (by rw [hio]; exact hon) (by rw [hsy]; exact hns)
    rw [htr2, hpend, mkItems_flatMap env cfg hmax now]

/-- Three mutations: an order creation, a customer update, and a product
creation (which implies no remote call). -/
def msC4 : List Mutation :=
  [{ type := .order, action := .create, data := {} },
   { type := .customer, action := .update, data := { entityId := some "c9" } },
   { type := .product, action := .create, data := {} }]

/-- Witness for C4: the three concrete mutations are read back FIFO and
dispatched in enqueue order by one pass. -/
theorem syncAll_fifo_witness :
    (getPendingQueueItems (enqueueAll 0 msC4 initState).queue).map
        (fun i => (i.type, i.action, i.data)) =
      msC4.map (fun m => (m.type, m.action, m.data)) ∧
    (syncAll envAllOk SYNC_CONFIG (enqueueAll 0 msC4 initState)).remoteTrace =
      (enqueueAll 0 msC4 initState).remoteTrace ++ msC4.flatMap mutationCalls
        ++ refreshCalls envAllOk :=
  syncAll_fifo envAllOk SYNC_CONFIG 0 msC4 initState envAllOk_reliable
    ⟨by decide, by decide⟩ rfl rfl rfl (by decide)

/-- C8: across any sequence of public service operations, the retryCount
of a surviving queue item equals its old value plus exactly the number of
status writes of failed logged for it in between (updateQueueItemStatus is
the only writer and increments precisely on the failed transition), and is
therefore monotonically non-decreasing; no operation decreases or resets
it. -/
theorem retryCount_exact_monotone (env : SyncEnv) (cfg : SyncConfig)
    (ops : List ServiceOp) (s : ServiceState) (iid : Nat) (j j1 : QueueItem)
    (hwf : WF s) (hb : findItem s.queue iid = some j)
    (ha : findItem (applyOps env cfg ops s).queue iid = some j1) :
    j1.retryCount = j.retryCount +
      failedCount iid (eventsDelta s (applyOps env cfg ops s)) ∧
    j.retryCount ≤ j1.retryCount := by
  have he := (evol_wf_applyOps env cfg ops s hwf).1
  have heq := he.retry_eq iid j j1 hb ha
  exact ⟨heq, by rw [heq]; exact Nat.le_add_right _ _⟩

/-- A pending queue item for the C8 witness. -/
def itemC8 : QueueItem :=
  { id := 1, type := .order, action := .create, data := {}, timestamp := 0,
    retryCount := 0, status := .pending, error := none }

def stateC8 : ServiceState := { initState with queue := [itemC8], nextQueueId := 2 }

/-- One failed status write followed by a sync pass. -/
def opsC8 : List ServiceOp :=
  [.updateStatus 1 .failed (some "transport"), .sync]

/-- The C8 witness item after the failed write. -/
def itemC8fail : QueueItem :=
  { itemC8 with status := .failed, retryCount := 1, error := some "transport" }

/-- Witness for C8: after a failed status write and a sync pass the item
has retryCount 1 = 0 plus its single logged failed transition. -/
theorem retryCount_exact_monotone_witness :
    itemC8fail.retryCount = itemC8.retryCount +
      failedCount 1 (eventsDelta stateC8 (applyOps envAllOk SYNC_CONFIG opsC8 stateC8)) ∧
    itemC8.retryCount ≤ itemC8fail.retryCount :=
  retryCount_exact_monotone envAllOk SYNC_CONFIG opsC8 stateC8 1 itemC8 itemC8fail
    ⟨by decide, by decide⟩ (by decide) (by decide)

/-- C10: from a state not already syncing, syncAll always terminates with
the syncing flag false — whatever the environment does, including a failing
pending-queue read or failing status updates inside the drain, since every
error is caught and the finally block runs — and whenever the pass actually
starts (the service is online) at least the starting and finishing
broadcasts are issued.  The model returns a plain state, mirroring that the
promise resolves normally rather than rejecting. -/
theorem syncAll_resets_flag (env : SyncEnv) (cfg : SyncConfig) (s : ServiceState)
    (h : s.syncInProgress = false) :
    (syncAll env cfg s).syncInProgress = false ∧
    (s.isOnline = true → s.broadcasts + 2 ≤ (syncAll env cfg s).broadcasts) := by
  by_cases hon : s.isOnline = true
  · have hrun := syncAll_run env cfg s hon h
    constructor
    · rw [hrun]
      rfl
    · intro _
      rw [hrun]
      show s.broadcasts + 2 ≤
        (syncBody env cfg (notify { s with syncInProgress := true })).broadcasts + 1
      have hb2 : s.broadcasts + 1 ≤
          (syncBody env cfg (notify { s with syncInProgress := true })).broadcasts :=
        broadcasts_syncBody env cfg (notify { s with syncInProgress := true })
      omega
  · have hoff : s.isOnline = false := by
      cases hio : s.isOnline with
      | true => exact absurd hio hon
      | false => rfl
    rw [syncAll_guard_noop env cfg s (Or.inl hoff)]
    exact ⟨h, fun hcontra => absurd hcontra hon⟩

/-- Environment whose pending-queue read rejects with a storage error. -/
def envReadFail : SyncEnv := { envAllOk with readPendingOk := false }

/-- An online idle state with one pending item. -/
def stateC10 : ServiceState := { initState with queue := [itemC8], nextQueueId := 2 }

/-- Witness for C10: even when reading the pending queue throws, the pass
ends with the flag cleared and both boundary broadcasts issued. -/
theorem syncAll_resets_flag_witness :
    (syncAll envReadFail SYNC_CONFIG stateC10).syncInProgress = false ∧
    (stateC10.isOnline = true →
      stateC10.broadcasts + 2 ≤ (syncAll envReadFail SYNC_CONFIG stateC10).broadcasts) :=
  syncAll_resets_flag envReadFail SYNC_CONFIG stateC10 rfl

end MMM
